import Mathlib

/-!
Verification of the ComfyUI "Download Missing Models" front-end dialog
(`web/missing-models.js` and companion modules) against its natural-language
specification.

The JavaScript dialog is shallowly embedded: DOM state is reified into
records, asynchronous fetches become explicit outcome parameters, and the
event-loop is modelled by explicit event lists folded through step
functions.  JS `undefined`/`null` fields become `Option`, JS `Set` becomes a
duplicate-free `List`, and JS `Map` becomes an association list.
-/

/-- Console log events emitted by the dialog (modelling `console.log` /
`console.warn` / `console.error` calls that the spec's claims talk about). -/
inductive LogEvent where
  | nodeNotFound (node_id : Option Nat)
  | missingWidgetIndex
  | missingPropertyIndex
  | updatedWidgetsValues (index : Nat) (oldValue newValue : String)
  | updatedWidgetObject
  | updatedPropertyModel (index : Nat) (oldName newName : String)
  | appliedSummary (count : Nat)
  | noCorrectionsApplied (total : Nat)
  | folderLoadError (message : String)
  | loadedFolders (count : Nat)
  | scanError (message : String)
  | scanProgressPollError (message : String)
  | downloadError (message : String)
  | pollError (message : String)
  | cancelError (message : String)
  deriving DecidableEq, Repr

/-- A single widget object of a graph node; the dialog only touches its
`value` field (`node.widgets[i].value = correction.new_path`). -/
structure Widget where
  value : String
  deriving DecidableEq, Repr

/-- One entry of `node.properties.models`; the dialog rewrites `name` and
leaves every other field (here represented by `url`) alone. -/
structure PropModel where
  name : String
  url : String
  deriving DecidableEq, Repr

/-- The `properties` object of a graph node, as far as the dialog reads it. -/
structure NodeProperties where
  models : Option (List PropModel)
  deriving DecidableEq, Repr

/-- A node of the host graph.  `widgets_values` is a JS array whose entries
may individually be `undefined` (hence `Option String`); the array itself,
the `widgets` array and the `properties` object may each be absent. -/
structure GraphNode where
  id : Nat
  ntype : String
  widgets_values : Option (List (Option String))
  widgets : Option (List Widget)
  properties : Option NodeProperties
  deriving DecidableEq, Repr

/-- The host graph plus the two persistence flags the dialog can raise
(`setDirtyCanvas(true, true)` and `change()`). -/
structure Graph where
  nodes : List GraphNode
  dirtyCanvas : Bool
  changeCalled : Bool
  deriving DecidableEq, Repr

/-- A path correction as delivered by the backend.  Every field other than
`new_path` can be absent in the JSON payload. -/
structure Correction where
  node_id : Option Nat
  correction_type : Option String
  widget_index : Option Nat
  property_index : Option Nat
  new_path : String
  deriving DecidableEq, Repr

/-- `app.graph.getNodeById(id)`: first node whose id matches; `null` when the
id is absent from the graph or the correction carries no id. -/
def getNodeById (nodes : List GraphNode) (nid : Option Nat) : Option GraphNode :=
  match nid with
  | none => none
  | some i => nodes.find? (fun n => n.id = i)

/-- In-place mutation of the node found by `getNodeById`: replace the first
node carrying the given id. -/
def replaceNodeById : List GraphNode → Nat → GraphNode → List GraphNode
  | [], _, _ => []
  | n :: rest, nid, n' =>
    if n.id = nid then n' :: rest else n :: replaceNodeById rest nid n'

/-- Widget branch of `applyCorrectionsToGraph` (node found, index present):
update `widgets_values[i]` when that entry is defined (counting it as
applied) and also update `widgets[i].value` when that widget exists. -/
def applyWidgetCorrection (n : GraphNode) (i : Nat) (newPath : String) :
    GraphNode × Nat × List LogEvent :=
  let step1 :
      Option (List (Option String)) × Nat × List LogEvent :=
    match n.widgets_values with
    | some ws =>
      match ws.get? i with
      | some (some oldValue) =>
        (some (ws.set i (some newPath)), 1,
          [LogEvent.updatedWidgetsValues i oldValue newPath])
      | _ => (n.widgets_values, 0, [])
    | none => (n.widgets_values, 0, [])
  let step2 : Option (List Widget) × List LogEvent :=
    match n.widgets with
    | some wl =>
      if i < wl.length then
        (some (wl.set i { value := newPath }), [LogEvent.updatedWidgetObject])
      else (n.widgets, [])
    | none => (n.widgets, [])
  ({ n with widgets_values := step1.1, widgets := step2.1 },
    step1.2.1, step1.2.2 ++ step2.2)

/-- Property branch of `applyCorrectionsToGraph` (node found, index
present): rewrite `properties.models[i].name` when that entry exists. -/
def applyPropertyCorrection (n : GraphNode) (i : Nat) (newPath : String) :
    GraphNode × Nat × List LogEvent :=
  match n.properties with
  | some props =>
    match props.models with
    | some ms =>
      match ms.get? i with
      | some pm =>
        let pm' : PropModel := { pm with name := newPath }
        let props' : NodeProperties := { props with models := some (ms.set i pm') }
        ({ n with properties := some props' },
          1, [LogEvent.updatedPropertyModel i pm.name newPath])
      | none => (n, 0, [])
    | none => (n, 0, [])
  | none => (n, 0, [])

/-- One iteration of the `for (const correction of corrections)` loop of
`applyCorrectionsToGraph`: find the node, skip with a warning when it is
absent or when the required index field is missing, otherwise apply the
widget/property update. -/
def applyCorrectionStep (nodes : List GraphNode) (c : Correction) :
    List GraphNode × Nat × List LogEvent :=
  match getNodeById nodes c.node_id, c.node_id with
  | none, _ => (nodes, 0, [LogEvent.nodeNotFound c.node_id])
  | some n, some nid =>
    if c.correction_type = some "widget" then
      match c.widget_index with
      | none => (nodes, 0, [LogEvent.missingWidgetIndex])
      | some i =>
        let r := applyWidgetCorrection n i c.new_path
        (replaceNodeById nodes nid r.1, r.2.1, r.2.2)
    else if c.correction_type = some "property" then
      match c.property_index with
      | none => (nodes, 0, [LogEvent.missingPropertyIndex])
      | some i =>
        let r := applyPropertyCorrection n i c.new_path
        (replaceNodeById nodes nid r.1, r.2.1, r.2.2)
    else (nodes, 0, [])
  | some _, none => (nodes, 0, [])

/-- The correction loop over a whole list, accumulating `appliedCount` and
the console output. -/
def applyCorrectionsList (nodes : List GraphNode) :
    List Correction → List GraphNode × Nat × List LogEvent
  | [] => (nodes, 0, [])
  | c :: cs =>
    let r1 := applyCorrectionStep nodes c
    let r2 := applyCorrectionsList r1.1 cs
    (r2.1, r1.2.1 + r2.2.1, r1.2.2 ++ r2.2.2)

/-- `applyCorrectionsToGraph(corrections)`: run the loop and, when at least
one correction was applied, call `setDirtyCanvas(true, true)` and
`change()`; otherwise warn that nothing was applied.  The surrounding
`try/catch` corresponds to this being a total function. -/
def applyCorrectionsToGraph (g : Graph) (cs : List Correction) :
    Graph × List LogEvent :=
  let r := applyCorrectionsList g.nodes cs
  if r.2.1 > 0 then
    ({ g with nodes := r.1, dirtyCanvas := true, changeCalled := true },
      r.2.2 ++ [LogEvent.appliedSummary r.2.1])
  else
    ({ g with nodes := r.1 }, r.2.2 ++ [LogEvent.noCorrectionsApplied cs.length])

/-!
## UI freeze / deferred-DOM-update machinery (`part_000` `createContent`,
`freezeUI`, `unfreezeUI`, `scheduleDomUpdate`, `flushDomUpdateQueue`,
`flushPendingProgressUpdates`)

DOM-mutation callbacks are abstracted to `Nat` tokens: the queue stores the
callbacks unevaluated, and `executed` records, in order, which callbacks
have actually run.  Pending progress updates (a JS `Map` keyed by model
name) are likewise abstracted, flushed into `progressApplied`.
-/

namespace Freeze

/-- Dialog fields involved in the scroll-freeze mechanism. -/
structure State where
  uiFrozen : Bool
  isMouseDown : Bool
  domUpdateQueue : List Nat
  pendingProgressUpdates : List (String × Nat)
  executed : List Nat
  progressApplied : List (String × Nat)
  deriving DecidableEq, Repr

/-- `freezeUI()`: raise the freeze flag. -/
def freezeUI (s : State) : State := { s with uiFrozen := true }

/-- The `mousedown` listener attached to the models list in
`createContent`: record the press and freeze the UI. -/
def mouseDownHandler (s : State) : State :=
  freezeUI { s with isMouseDown := true }

/-- `flushPendingProgressUpdates()`: replay and clear the pending per-model
progress updates (each replay abstracted into `progressApplied`). -/
def flushPendingProgressUpdates (s : State) : State :=
  if s.pendingProgressUpdates.length = 0 then s
  else
    { s with pendingProgressUpdates := [],
             progressApplied := s.progressApplied ++ s.pendingProgressUpdates }

/-- `flushDomUpdateQueue()`: when not frozen, splice out the whole queue and
run every deferred callback in order (each run wrapped in `try/catch`,
hence a total step). -/
def flushDomUpdateQueue (s : State) : State :=
  if s.uiFrozen ∨ s.domUpdateQueue.length = 0 then s
  else
    { s with domUpdateQueue := [],
             executed := s.executed ++ s.domUpdateQueue }

/-- `unfreezeUI()`: no-op while the mouse is still down or when not frozen;
otherwise clear the flag and flush both queues. -/
def unfreezeUI (s : State) : State :=
  if s.isMouseDown then s
  else if s.uiFrozen = false then s
  else flushDomUpdateQueue (flushPendingProgressUpdates { s with uiFrozen := false })

/-- The document-level `mouseup` listener attached in `createContent`. -/
def mouseUpHandler (s : State) : State :=
  unfreezeUI { s with isMouseDown := false }

/-- `scheduleDomUpdate(callback)`: queue the callback while frozen,
otherwise run it immediately. -/
def scheduleDomUpdate (s : State) (u : Nat) : State :=
  if s.uiFrozen then { s with domUpdateQueue := s.domUpdateQueue ++ [u] }
  else { s with executed := s.executed ++ [u] }

/-- A sequence of `scheduleDomUpdate` submissions. -/
def scheduleAll (s : State) (us : List Nat) : State :=
  us.foldl scheduleDomUpdate s

end Freeze

/-!
## Dialog data model (`part_000` `MissingModelsDialog`)

DOM elements the dialog keeps per model (`model._downloadButton`,
`model._statusText`, `model._progressBar`, `model._card`) are reified into
a `ModelUI` record stored in an association list keyed by model name.
Dialog-level functions below give the effect of each method for the
un-frozen dialog (`uiFrozen = false`, the state in which their
`scheduleDomUpdate` callbacks run synchronously); the queueing wrapper
itself is verified in the `Freeze` namespace.
-/

/-- One entry of `model.search_suggestions`. -/
structure Suggestion where
  download_url : Option String
  expected_filename : Option String
  actual_filename : Option String
  deriving DecidableEq, Repr

/-- One entry of `model.related_usages` (also the shape produced by
`_buildUsageMetadataFromModel`). -/
structure Usage where
  node_id : Option Nat
  node_type : Option String
  correction_type : Option String
  widget_index : Option Nat
  property_index : Option Nat
  deriving DecidableEq, Repr

/-- A missing-model record as delivered by the scan endpoint. -/
structure MissingModel where
  name : String
  folder : Option String
  directory : Option String
  url : Option String
  expected_filename : Option String
  actual_filename : Option String
  node_id : Option Nat
  node_type : Option String
  correction_type : Option String
  widget_index : Option Nat
  property_index : Option Nat
  related_usages : List Usage
  search_suggestions : List Suggestion
  has_exact_hf_match : Option Bool
  needs_folder_selection : Option Bool
  deriving DecidableEq, Repr

/-- JS `String.prototype.trim` whitespace (the characters occurring in the
URLs at hand). -/
def isJsWhitespace (c : Char) : Bool :=
  c = ' ' ∨ c = '\t' ∨ c = '\n' ∨ c = '\r'

/-- JS `String.prototype.trim`: strip whitespace from both ends. -/
def jsTrim (s : String) : String :=
  String.mk (((s.data.dropWhile isJsWhitespace).reverse.dropWhile isJsWhitespace).reverse)

/-- `Boolean(model.url && model.url.trim() !== '')`: the url is present,
truthy (non-empty) and not blank after trimming. -/
def modelHasUrl (m : MissingModel) : Bool :=
  match m.url with
  | none => false
  | some s => s ≠ "" ∧ jsTrim s ≠ ""

/-- `suggestions.length > 0 && model.has_exact_hf_match !== true`. -/
def modelHasSuggestionMatches (m : MissingModel) : Bool :=
  m.search_suggestions.length > 0 ∧ m.has_exact_hf_match ≠ some true

/-- The per-model action button (a `createStyledButton` result). -/
structure ButtonUI where
  text : String
  disabled : Bool
  cursor : String
  backgroundColor : String
  opacity : String
  deriving DecidableEq, Repr

/-- The `updateDownloadButtonState` closure of `createModelCard`
(`part_000` lines 874-883): recompute `hasUrl`/`canDownload` and refresh
the button; `needsFolderSelection` is the captured mutable local. -/
def updateDownloadButtonState (m : MissingModel) (needsFolderSelection : Bool)
    (btn : ButtonUI) : ButtonUI :=
  let hasUrl := modelHasUrl m
  let canDownload := hasUrl ∧ ¬ needsFolderSelection
  { btn with
    disabled := ¬ canDownload
    text := if hasUrl then "Download"
            else if modelHasSuggestionMatches m then "Select Match" else "No URL"
    cursor := if canDownload then "pointer" else "not-allowed"
    backgroundColor := if canDownload then "#0066cc" else "#444"
    opacity := if canDownload then "1" else "0.6" }

/-- The action button rendered by `createModelCard` (`part_000` lines
813-883): `createStyledButton` with the initial label and styles, followed
by the immediate `updateDownloadButtonState()` call. -/
def createModelCardButton (m : MissingModel) : ButtonUI :=
  let hasUrl := modelHasUrl m
  let needsFolderSelection := m.needs_folder_selection = some true
  let canDownload := hasUrl ∧ ¬ needsFolderSelection
  let btn : ButtonUI :=
    { text := if hasUrl then "Download"
              else if modelHasSuggestionMatches m then "Select Match" else "No URL"
      disabled := false
      cursor := if canDownload then "pointer" else "not-allowed"
      backgroundColor := if canDownload then "#0066cc" else "#444"
      opacity := if canDownload then "1" else "0.6" }
  updateDownloadButtonState m needsFolderSelection btn

/-- The reified per-model DOM references stored on the model
(`_downloadButton`, `_progressBar`, `_statusText`, `_card`). -/
structure ModelUI where
  button : ButtonUI
  progressVisible : Bool
  progressWidth : Nat
  progressPulsing : Bool
  statusVisible : Bool
  statusText : String
  statusColor : String
  cardOpacity : String
  deriving DecidableEq, Repr

/-- The per-model DOM state right after `createModelCard` built the card:
progress bar and status text hidden, button as rendered. -/
def initialModelUI (m : MissingModel) : ModelUI :=
  { button := createModelCardButton m
    progressVisible := false
    progressWidth := 0
    progressPulsing := false
    statusVisible := false
    statusText := ""
    statusColor := "#aaa"
    cardOpacity := "1" }

/-- A download-progress record from `/download-missing/status/:key`. -/
structure Progress where
  status : String
  progress : Nat
  downloaded : Nat
  total : Nat
  error : Option String
  deriving DecidableEq, Repr

/-- Backend requests the dialog can issue (payload reduced to the fields
the claims mention). -/
inductive Request where
  | scan
  | folders
  | download (model_name : String)
  | cancel (model_name : String)
  deriving DecidableEq, Repr

/-- The `STATUS_TYPES` enumeration from `constants.js`. -/
inductive StatusType where
  | info
  | success
  | warning
  | error
  deriving DecidableEq, Repr

/-- JS `Set.add`: append unless already present. -/
def setAdd (s : List String) (x : String) : List String :=
  if x ∈ s then s else s ++ [x]

/-- JS `Set.delete` on a duplicate-free list. -/
def setDelete (s : List String) (x : String) : List String :=
  s.filter (fun y => y ≠ x)

/-- JS `Map.set`: overwrite in place or append, preserving insertion
order. -/
def mapSet (m : List (String × Progress)) (k : String) (v : Progress) :
    List (String × Progress) :=
  if m.any (fun p => p.1 = k) then
    m.map (fun p => if p.1 = k then (k, v) else p)
  else m ++ [(k, v)]

/-- JS `Map.delete`. -/
def mapDelete (m : List (String × Progress)) (k : String) :
    List (String × Progress) :=
  m.filter (fun p => p.1 ≠ k)

/-- The dialog's mutable state (constructor fields of
`MissingModelsDialog` plus the reified DOM pieces the claims mention; the
`domUpdateQueue` itself is modelled in the `Freeze` namespace). -/
structure DialogState where
  missingModels : List MissingModel
  notFoundModels : List MissingModel
  correctedModels : List Correction
  downloadingModels : List String
  pendingProgressUpdates : List (String × Progress)
  uiFrozen : Bool
  isMouseDown : Bool
  availableFolders : List String
  graph : Graph
  modelUIs : List (String × ModelUI)
  statusBar : String × StatusType
  statusLog : List (String × StatusType)
  consoleLog : List LogEvent
  downloadAllDisabled : Bool
  scanProgressWidth : Nat
  scanProgressMessage : String
  deriving DecidableEq, Repr

/-- Dialog state right after construction / `show()` reset, over a given
host graph. -/
def initDialogState (g : Graph) : DialogState :=
  { missingModels := []
    notFoundModels := []
    correctedModels := []
    downloadingModels := []
    pendingProgressUpdates := []
    uiFrozen := false
    isMouseDown := false
    availableFolders := []
    graph := g
    modelUIs := []
    statusBar := ("Scanning workflow for missing models...", StatusType.info)
    statusLog := []
    consoleLog := []
    downloadAllDisabled := false
    scanProgressWidth := 0
    scanProgressMessage := "" }

/-- Look up the reified DOM references of a model (the elements
`createModelCard` stored on it); a default hidden card stands in when the
card has not been rendered. -/
def getModelUI (st : DialogState) (name : String) : ModelUI :=
  match st.modelUIs.find? (fun p => p.1 = name) with
  | some p => p.2
  | none => { button := { text := "Download", disabled := false, cursor := "pointer",
                          backgroundColor := "#0066cc", opacity := "1" }
              progressVisible := false, progressWidth := 0, progressPulsing := false
              statusVisible := false, statusText := "", statusColor := "#aaa"
              cardOpacity := "1" }

/-- Store back the mutated DOM references of a model. -/
def setModelUI (st : DialogState) (name : String) (ui : ModelUI) : DialogState :=
  if st.modelUIs.any (fun p => p.1 = name) then
    { st with modelUIs := st.modelUIs.map (fun p => if p.1 = name then (name, ui) else p) }
  else
    { st with modelUIs := st.modelUIs ++ [(name, ui)] }

/-- `updateStatus(message, type)`: replace the status-bar content (the
`scheduleDomUpdate` wrapper runs this synchronously when not frozen).  The
`statusLog` history records every message ever posted. -/
def updateStatus (st : DialogState) (message : String) (ty : StatusType) : DialogState :=
  { st with statusBar := (message, ty), statusLog := st.statusLog ++ [(message, ty)] }

/-- `_updateDownloadAllButtonStateImmediate()`: enable the Download-All
button iff some missing model has a URL and is not both downloading and
completed.  The 100 ms debounce timer of `updateDownloadAllButtonState` is
abstracted away (the synchronous model runs the debounced body at once). -/
def updateDownloadAllButtonState (st : DialogState) : DialogState :=
  let modelsReadyToDownload := st.missingModels.filter (fun m =>
    let hasUrl := modelHasUrl m
    let notDownloading : Bool := m.name ∉ st.downloadingModels
    let notCompleted : Bool :=
      match st.modelUIs.find? (fun p => p.1 = m.name) with
      | none => true
      | some p => p.2.button.text ≠ "Completed"
    hasUrl && (notDownloading || notCompleted))
  { st with downloadAllDisabled := !(modelsReadyToDownload.length > 0 : Bool) }

/-- `_buildUsageMetadataFromModel(model)`. -/
def buildUsageMetadataFromModel (m : MissingModel) : Usage :=
  { node_id := m.node_id
    node_type := m.node_type
    correction_type := m.correction_type
    widget_index := m.widget_index
    property_index := m.property_index }

/-- The `correction` object of a successful `/download-missing/download`
response (fields other than the new path are overridden per usage by the
spread in `downloadModel`). -/
structure CorrectionResponse where
  new_path : String
  deriving DecidableEq, Repr

/-- Outcome of the awaited `/download-missing/download` POST. -/
inductive DownloadResult where
  | ok (correction : Option CorrectionResponse)
  | httpError (status : Nat) (statusText : String)
  | networkError (message : String)
  deriving DecidableEq, Repr

/-- The `catch` block of `downloadModel`: log, release the name from
`downloadingModels`, surface the error in the per-model status text and
relabel the button `Retry`. -/
def downloadModelCatch (st : DialogState) (m : MissingModel) (msg : String) : DialogState :=
  let st := { st with consoleLog := st.consoleLog ++ [LogEvent.downloadError msg],
                      downloadingModels := setDelete st.downloadingModels m.name }
  let ui := getModelUI st m.name
  let ui := { ui with statusText := "Error: " ++ msg
                      statusColor := "#f44"
                      statusVisible := true
                      button := { ui.button with text := "Retry", disabled := false } }
  setModelUI st m.name ui

/-- `downloadModel(model, progressBar, statusText, downloadButton)`
(`part_000` lines 1167-1243): no-op when the model is already downloading;
otherwise lock the name, update the card UI, POST the download request and
either apply the returned correction per related usage and start polling
(`ok`), or run the catch block.  Returns the new state, the requests
issued, and whether `pollProgress` was started. -/
def downloadModel (st : DialogState) (m : MissingModel) (outcome : DownloadResult) :
    DialogState × List Request × Bool :=
  if m.name ∈ st.downloadingModels then
    (st, [], false)
  else
    let st := { st with downloadingModels := setAdd st.downloadingModels m.name }
    let ui := getModelUI st m.name
    let ui := { ui with button := { ui.button with disabled := true, text := "Downloading..." }
                        progressVisible := true
                        statusVisible := true
                        statusText := "Starting download..."
                        statusColor := "#aaa" }
    let st := setModelUI st m.name ui
    match outcome with
    | DownloadResult.ok corr =>
      let st :=
        match corr with
        | some base =>
          let usageList :=
            if m.related_usages.length > 0 then m.related_usages
            else [buildUsageMetadataFromModel m]
          let corrections := usageList.filterMap (fun u =>
            match u.node_id with
            | some nid =>
              some { node_id := some nid
                     correction_type := u.correction_type
                     widget_index := u.widget_index
                     property_index := u.property_index
                     new_path := base.new_path : Correction }
            | none => none)
          if corrections.length > 0 then
            let r := applyCorrectionsToGraph st.graph corrections
            { st with graph := r.1, consoleLog := st.consoleLog ++ r.2 }
          else st
        | none => st
      (st, [Request.download m.name], true)
    | DownloadResult.httpError code text =>
      (downloadModelCatch st m ("HTTP " ++ toString code ++ ": " ++ text),
        [Request.download m.name], false)
    | DownloadResult.networkError msg =>
      (downloadModelCatch st m msg, [Request.download m.name], false)

/-- Fixed-point rendering of `(bytes / (1024 * 1024)).toFixed(2)`; the JS
floating-point formatting is abstracted to rounded hundredths (no claim
depends on the exact digits). -/
def mbString (bytes : Nat) : String :=
  let hundredths := (bytes * 100 + 524288) / 1048576
  toString (hundredths / 100) ++ "." ++
    (if hundredths % 100 < 10 then "0" else "") ++ toString (hundredths % 100)

/-- The status line shown while a download is in flight. -/
def downloadingStatusText (p : Progress) : String :=
  "Downloading: " ++ mbString p.downloaded ++ " MB / " ++ mbString p.total ++
    " MB (" ++ toString p.progress ++ "%)"

/-- `applyProgressUpdate(model, progress)` (`part_000` lines 1272-1321):
update the progress bar width, then branch on the status; each terminal
status removes the model from `downloadingModels` and restyles the card.
Its `scheduleDomUpdate` wrapper runs the body synchronously when the UI is
not frozen (the only state in which its callers invoke it). -/
def applyProgressUpdate (st : DialogState) (m : MissingModel) (p : Progress) : DialogState :=
  let ui := getModelUI st m.name
  let ui := { ui with progressWidth := p.progress }
  if p.status = "downloading" then
    let ui := { ui with statusText := downloadingStatusText p
                        statusColor := "#6c9"
                        progressPulsing := true }
    setModelUI st m.name ui
  else if p.status = "completed" then
    let st := { st with downloadingModels := setDelete st.downloadingModels m.name }
    let ui := { ui with progressPulsing := false
                        statusText := "Download completed!"
                        statusColor := "#6c9"
                        button := { ui.button with text := "Completed", backgroundColor := "#28a745" }
                        cardOpacity := "0.7" }
    updateDownloadAllButtonState (setModelUI st m.name ui)
  else if p.status = "error" then
    let st := { st with downloadingModels := setDelete st.downloadingModels m.name }
    let ui := { ui with statusText := "Error: " ++ p.error.getD "Unknown error"
                        statusColor := "#f44"
                        button := { ui.button with text := "Failed", disabled := true }
                        progressPulsing := false }
    updateDownloadAllButtonState (setModelUI st m.name ui)
  else if p.status = "cancelled" then
    let st := { st with downloadingModels := setDelete st.downloadingModels m.name }
    let ui := { ui with statusText := "Download cancelled"
                        statusColor := "#fa4"
                        button := { ui.button with text := "Download", disabled := false }
                        progressPulsing := false }
    updateDownloadAllButtonState (setModelUI st m.name ui)
  else
    setModelUI st m.name ui

/-- Outcome of one tick of the `pollEndpoint` interval (`uiHelpers.js`):
a parsed JSON body, a non-OK HTTP response, or a thrown exception. -/
inductive FetchTick (δ : Type) where
  | ok (data : δ)
  | httpError (status : Nat)
  | exn (message : String)
  deriving DecidableEq, Repr

/-- `pollEndpoint(url, onUpdate, shouldStop, interval, onError)` from
`uiHelpers.js`, run over the finite sequence of tick outcomes the backend
produces: a non-OK response clears the interval after calling `onError`;
an OK response feeds `onUpdate` and stops when `shouldStop` says so; a
thrown error calls `onError` and keeps polling. -/
def pollEndpointRun {δ : Type} (onUpdate : DialogState → δ → DialogState)
    (shouldStop : δ → Bool) (onError : DialogState → String → DialogState) :
    DialogState → List (FetchTick δ) → DialogState
  | st, [] => st
  | st, FetchTick.httpError code :: _ =>
    onError st ("HTTP " ++ toString code)
  | st, FetchTick.exn msg :: ts =>
    pollEndpointRun onUpdate shouldStop onError (onError st msg) ts
  | st, FetchTick.ok data :: ts =>
    let st' := onUpdate st data
    if shouldStop data then st'
    else pollEndpointRun onUpdate shouldStop onError st' ts

/-- A `/download-missing/status/:key` response body. -/
structure StatusData where
  status : String
  progress : Option Progress
  deriving DecidableEq, Repr

/-- The `onUpdate` callback of `pollProgress` (`part_000` lines
1250-1262): while the UI is frozen the update is parked in
`pendingProgressUpdates`; otherwise any parked entry is dropped and the
update is applied. -/
def pollProgressOnUpdate (m : MissingModel) (st : DialogState) (data : StatusData) :
    DialogState :=
  if data.status = "success" then
    match data.progress with
    | some progress =>
      if st.uiFrozen then
        { st with pendingProgressUpdates := mapSet st.pendingProgressUpdates m.name progress }
      else
        applyProgressUpdate
          { st with pendingProgressUpdates := mapDelete st.pendingProgressUpdates m.name }
          m progress
    | none => st
  else st

/-- The `shouldStop` callback of `pollProgress`: stop on a successful
response whose progress status is terminal. -/
def pollProgressShouldStop (data : StatusData) : Bool :=
  data.status = "success" &&
    (match data.progress with
     | some p => p.status = "completed" || p.status = "error" || p.status = "cancelled"
     | none => false)

/-- The `onError` callback of `pollProgress`: log only. -/
def pollProgressOnError (st : DialogState) (msg : String) : DialogState :=
  { st with consoleLog := st.consoleLog ++ [LogEvent.pollError msg] }

/-- `pollProgress(model)` driven by a finite sequence of status-endpoint
tick outcomes. -/
def runPollProgress (st : DialogState) (m : MissingModel)
    (ticks : List (FetchTick StatusData)) : DialogState :=
  pollEndpointRun (pollProgressOnUpdate m) pollProgressShouldStop pollProgressOnError st ticks

/-- `downloadAllModels()` (`part_000` lines 1332-1356): with no
URL-bearing model, post a warning and start nothing; otherwise post the
`Starting N download(s)` message and invoke `downloadModel` on every
URL-bearing model whose download button exists and is enabled.  The
returned list records the models passed to `downloadModel` (whose own
transition is `downloadModel` above; `Promise.allSettled` awaits only the
initiations). -/
def downloadAllModels (st : DialogState) : DialogState × List MissingModel :=
  let modelsWithUrls := st.missingModels.filter (fun m => modelHasUrl m)
  if modelsWithUrls.length = 0 then
    (updateStatus st "No models with URLs to download" StatusType.warning, [])
  else
    let st' := updateStatus st
      ("Starting " ++ toString modelsWithUrls.length ++ " download(s)...") StatusType.info
    let started := modelsWithUrls.filter (fun m =>
      match st'.modelUIs.find? (fun p => p.1 = m.name) with
      | some p => !p.2.button.disabled
      | none => false)
    (st', started)

/-- The `.catch` handler of a fire-and-forget cancel request issued by
`close()`: the failure is only logged. -/
def handleCancelError (st : DialogState) (msg : String) : DialogState :=
  { st with consoleLog := st.consoleLog ++ [LogEvent.cancelError msg] }

/-- `close()` (`part_000` lines 1398-1429): fade out (DOM only), detach
the drag listeners, reset the freeze state, drop pending updates, issue
one fire-and-forget `/download-missing/cancel` POST per downloading model
and clear the set.  The responses are never awaited, so the resulting
state does not depend on their outcomes. -/
def closeDialog (st : DialogState) : DialogState × List Request :=
  let requests := st.downloadingModels.map (fun name => Request.cancel name)
  ({ st with uiFrozen := false
             isMouseDown := false
             pendingProgressUpdates := []
             downloadingModels := [] },
    requests)

/-- A `/download-missing/folders` response. -/
inductive FoldersResult where
  | ok (status : String) (folders : Option (List String))
  | httpError (status : Nat)
  | networkError (message : String)
  deriving DecidableEq, Repr

/-- `loadAvailableFolders()` (`part_000` lines 317-331): store the folder
list on a successful response; a non-OK response is silently skipped (the
`if (response.ok)` guard has no else branch); a thrown error is caught and
logged, and the dialog continues. -/
def loadAvailableFolders (st : DialogState) (r : FoldersResult) : DialogState :=
  match r with
  | FoldersResult.ok status folders =>
    if status = "success" then
      let fs := folders.getD []
      { st with availableFolders := fs
                consoleLog := st.consoleLog ++ [LogEvent.loadedFolders fs.length] }
    else st
  | FoldersResult.httpError _ => st
  | FoldersResult.networkError msg =>
    { st with consoleLog := st.consoleLog ++ [LogEvent.folderLoadError msg] }

/-- `progress.current` of a `/download-missing/scan-progress` response. -/
structure ScanCurrent where
  progress : Nat
  message : Option String
  deriving DecidableEq, Repr

/-- The `progress` object of a scan-progress response. -/
structure ScanProgressInner where
  current : Option ScanCurrent
  deriving DecidableEq, Repr

/-- A `/download-missing/scan-progress` response body. -/
structure ScanProgressData where
  status : String
  progress : Option ScanProgressInner
  deriving DecidableEq, Repr

/-- `showScanProgress()`: rebuild the models list as a progress container
(reified to resetting the scan-progress bar and caption). -/
def showScanProgress (st : DialogState) : DialogState :=
  { st with scanProgressWidth := 0
            scanProgressMessage := "Scanning workflow nodes..." }

/-- `updateScanProgress(progress)`: move the bar and caption. -/
def updateScanProgress (st : DialogState) (cur : ScanCurrent) : DialogState :=
  { st with scanProgressWidth := cur.progress
            scanProgressMessage := cur.message.getD "Scanning..." }

/-- The `onUpdate` callback `scanWorkflow` hands to `pollEndpoint`
(`data.status === 'success' && data.progress?.current`). -/
def scanProgressOnUpdate (st : DialogState) (data : ScanProgressData) : DialogState :=
  if data.status = "success" then
    match data.progress with
    | some inner =>
      match inner.current with
      | some cur => updateScanProgress st cur
      | none => st
    | none => st
  else st

/-- The `onError` callback of the scan-progress poll: log only. -/
def scanProgressPollOnError (st : DialogState) (msg : String) : DialogState :=
  { st with consoleLog := st.consoleLog ++ [LogEvent.scanProgressPollError msg] }

/-- `displayModels()`, reduced to its effect on the reified per-model DOM
map: a fresh card (and hence a fresh `_downloadButton` and friends) per
missing model, then `updateDownloadAllButtonState()`.  The corrected and
not-found sections build display-only DOM. -/
def displayModels (st : DialogState) : DialogState :=
  updateDownloadAllButtonState
    { st with modelUIs := st.missingModels.map (fun m => (m.name, initialModelUI m)) }

/-- A `/download-missing/scan` response body. -/
structure ScanResponseBody where
  status : String
  message : Option String
  missing_models : Option (List MissingModel)
  not_found_models : Option (List MissingModel)
  corrected_models : Option (List Correction)
  deriving DecidableEq, Repr

/-- Outcome of the awaited `/download-missing/scan` POST. -/
inductive ScanResult where
  | ok (body : ScanResponseBody)
  | httpError (status : Nat) (statusText : String)
  | networkError (message : String)
  deriving DecidableEq, Repr

/-- The `catch` block of `scanWorkflow`: log the error and surface it in
the status bar. -/
def scanWorkflowCatch (st : DialogState) (msg : String) : DialogState :=
  updateStatus { st with consoleLog := st.consoleLog ++ [LogEvent.scanError msg] }
    ("Error scanning workflow: " ++ msg) StatusType.error

/-- The success branch of `scanWorkflow` once the response body parsed
with `status === 'success'`: store the three model lists, apply any
corrections to the host graph, rebuild the list DOM and post the summary
status message. -/
def scanWorkflowSuccess (st : DialogState) (body : ScanResponseBody) : DialogState :=
  let st := { st with missingModels := body.missing_models.getD []
                      notFoundModels := body.not_found_models.getD []
                      correctedModels := body.corrected_models.getD [] }
  let st :=
    if st.correctedModels.length > 0 then
      let r := applyCorrectionsToGraph st.graph st.correctedModels
      { st with graph := r.1, consoleLog := st.consoleLog ++ r.2 }
    else st
  let st := displayModels st
  let messages :=
    (if st.correctedModels.length > 0 then
      [toString st.correctedModels.length ++ " model(s) found and corrected"] else []) ++
    (if st.missingModels.length > 0 then
      [toString st.missingModels.length ++ " model(s) ready to download"] else []) ++
    (if st.notFoundModels.length > 0 then
      [toString st.notFoundModels.length ++ " model(s) not found"] else [])
  if messages.length = 0 then
    updateStatus st "No missing models found! All models are installed." StatusType.success
  else
    let statusMessage := String.intercalate ", " messages ++ "."
    let hasIssues := st.missingModels.length > 0 ∨ st.notFoundModels.length > 0
    updateStatus st statusMessage (if hasIssues then StatusType.warning else StatusType.success)

/-- `scanWorkflow()` (`part_000` lines 333-408): show the progress bar,
poll the scan-progress endpoint (stopped manually once the scan response
arrives, hence the finite tick list), then branch on the scan POST
outcome; any thrown error lands in the catch block. -/
def scanWorkflow (st : DialogState) (ticks : List (FetchTick ScanProgressData))
    (resp : ScanResult) : DialogState × List Request :=
  let st := showScanProgress st
  let st := pollEndpointRun scanProgressOnUpdate (fun _ => false) scanProgressPollOnError st ticks
  match resp with
  | ScanResult.ok body =>
    if body.status = "success" then (scanWorkflowSuccess st body, [Request.scan])
    else (scanWorkflowCatch st (body.message.getD "Unknown error"), [Request.scan])
  | ScanResult.httpError code text =>
    (scanWorkflowCatch st ("HTTP " ++ toString code ++ ": " ++ text), [Request.scan])
  | ScanResult.networkError msg =>
    (scanWorkflowCatch st msg, [Request.scan])

/-!
## Dialog session traces

Events of one dialog session after `show()`: a `downloadModel` invocation
together with its request outcome, an `applyProgressUpdate` delivery (the
poll loop only invokes it while the UI is not frozen), and closing the
dialog.
-/

/-- One observable event of a dialog session. -/
inductive DialogEvent where
  | startDownload (m : MissingModel) (outcome : DownloadResult)
  | progressUpdate (m : MissingModel) (p : Progress)
  | closeEvent
  deriving Repr

/-- Interpret one event by the corresponding dialog method. -/
def dialogStep (st : DialogState) (e : DialogEvent) : DialogState :=
  match e with
  | DialogEvent.startDownload m outcome => (downloadModel st m outcome).1
  | DialogEvent.progressUpdate m p => applyProgressUpdate st m p
  | DialogEvent.closeEvent => (closeDialog st).1

/-- Run a whole session trace. -/
def runDialog (st : DialogState) (tr : List DialogEvent) : DialogState :=
  tr.foldl dialogStep st

/-- Modelled from the claim: one event of the in-flight predicate.  A name
is in flight after a successful `downloadModel` initiation, and stops
being in flight when the initiation fails at request time, when a terminal
progress status (`completed`, `error`, `cancelled`) is applied for it, or
when the dialog closes. -/
def specInFlightStep (name : String) (b : Bool) (e : DialogEvent) : Bool :=
  match e with
  | DialogEvent.startDownload m outcome =>
    if m.name = name then
      if b then true
      else
        match outcome with
        | DownloadResult.ok _ => true
        | DownloadResult.httpError _ _ => false
        | DownloadResult.networkError _ => false
    else b
  | DialogEvent.progressUpdate m p =>
    if m.name = name ∧ (p.status = "completed" ∨ p.status = "error" ∨ p.status = "cancelled")
    then false else b
  | DialogEvent.closeEvent => false

/-- Modelled from the claim: which names are in flight after a trace. -/
def specInFlight (name : String) (tr : List DialogEvent) : Bool :=
  tr.foldl (specInFlightStep name) false

/-!
## Theorems
-/

namespace Freeze

/-- While frozen, a sequence of `scheduleDomUpdate` submissions only
appends to the queue, in submission order. -/
theorem scheduleAll_frozen : ∀ (us : List Nat) (s : State), s.uiFrozen = true →
    scheduleAll s us = { s with domUpdateQueue := s.domUpdateQueue ++ us }
  | [], s, h => by simp [scheduleAll]
  | u :: us, s, h => by
    have step : scheduleDomUpdate s u = { s with domUpdateQueue := s.domUpdateQueue ++ [u] } := by
      simp [scheduleDomUpdate, h]
    have ih := scheduleAll_frozen us { s with domUpdateQueue := s.domUpdateQueue ++ [u] } h
    simp [scheduleAll, List.foldl_cons, step] at *
    simpa using ih

end Freeze

/-- Claim C5: pressing the mouse on the models list freezes the UI; every
DOM mutation submitted through `scheduleDomUpdate` while frozen is queued
(none executes); releasing the mouse unfreezes the UI and executes all
queued updates in enqueue order, leaving the queue empty. -/
theorem freeze_queues_and_flushes_in_order (s : Freeze.State) (us : List Nat) :
    (Freeze.mouseDownHandler s).uiFrozen = true
    ∧ (Freeze.scheduleAll (Freeze.mouseDownHandler s) us).executed = s.executed
    ∧ (Freeze.scheduleAll (Freeze.mouseDownHandler s) us).domUpdateQueue
        = s.domUpdateQueue ++ us
    ∧ (Freeze.mouseUpHandler (Freeze.scheduleAll (Freeze.mouseDownHandler s) us)).uiFrozen
        = false
    ∧ (Freeze.mouseUpHandler (Freeze.scheduleAll (Freeze.mouseDownHandler s) us)).domUpdateQueue
        = []
    ∧ (Freeze.mouseUpHandler (Freeze.scheduleAll (Freeze.mouseDownHandler s) us)).executed
        = s.executed ++ (s.domUpdateQueue ++ us) := by
  have hsched := Freeze.scheduleAll_frozen us (Freeze.mouseDownHandler s)
    (by simp [Freeze.mouseDownHandler, Freeze.freezeUI])
  simp only [Freeze.mouseDownHandler, Freeze.freezeUI] at hsched ⊢
  rw [hsched]
  refine ⟨by simp, by simp, by simp, ?_, ?_, ?_⟩ <;>
    simp only [Freeze.mouseUpHandler, Freeze.unfreezeUI, Freeze.flushPendingProgressUpdates,
      Freeze.flushDomUpdateQueue] <;>
    split_ifs <;>
    simp_all [List.length_eq_zero]

/-- A minimal missing-model record, for concrete instances. -/
def mkModel (name : String) : MissingModel :=
  { name := name
    folder := none
    directory := none
    url := none
    expected_filename := none
    actual_filename := none
    node_id := none
    node_type := none
    correction_type := none
    widget_index := none
    property_index := none
    related_usages := []
    search_suggestions := []
    has_exact_hf_match := none
    needs_folder_selection := none }

/-- An empty host graph, for concrete instances. -/
def emptyHostGraph : Graph :=
  { nodes := [], dirtyCanvas := false, changeCalled := false }

/-- Claim C3: invoking `downloadModel` for a model whose name is already in
`downloadingModels` returns immediately: no HTTP request is issued, the
set is unchanged, and no UI element or dialog state is modified (the full
state and UI map are returned untouched), and no progress poll starts. -/
theorem downloadModel_noop_when_already_downloading (st : DialogState) (m : MissingModel)
    (outcome : DownloadResult) (h : m.name ∈ st.downloadingModels) :
    downloadModel st m outcome = (st, [], false) := by
  simp [downloadModel, h]

/-- Concrete instance of the duplicate-download guard. -/
theorem downloadModel_noop_when_already_downloading_witness :
    "modelA" ∈ ({ initDialogState emptyHostGraph with downloadingModels := ["modelA"] }
        : DialogState).downloadingModels
    ∧ downloadModel { initDialogState emptyHostGraph with downloadingModels := ["modelA"] }
        (mkModel "modelA") (DownloadResult.ok none)
      = ({ initDialogState emptyHostGraph with downloadingModels := ["modelA"] }, [], false) :=
  ⟨by decide,
   downloadModel_noop_when_already_downloading _ _ _ (by decide)⟩

/-- The node returned by a widget correction keeps its id. -/
theorem applyWidgetCorrection_id (n : GraphNode) (i : Nat) (p : String) :
    (applyWidgetCorrection n i p).1.id = n.id := rfl

/-- The node returned by a widget correction keeps its properties. -/
theorem applyWidgetCorrection_properties (n : GraphNode) (i : Nat) (p : String) :
    (applyWidgetCorrection n i p).1.properties = n.properties := rfl

/-- The node returned by a property correction keeps its id. -/
theorem applyPropertyCorrection_id (n : GraphNode) (i : Nat) (p : String) :
    (applyPropertyCorrection n i p).1.id = n.id := by
  rcases hp : n.properties with _ | props
  · simp [applyPropertyCorrection, hp]
  · rcases hm : props.models with _ | ms
    · simp [applyPropertyCorrection, hp, hm]
    · rcases hg : ms[i]? with _ | pm <;>
        simp [applyPropertyCorrection, hp, hm, List.get?_eq_getElem?, hg]

/-- The node returned by a property correction keeps the widget fields. -/
theorem applyPropertyCorrection_widgets (n : GraphNode) (i : Nat) (p : String) :
    (applyPropertyCorrection n i p).1.widgets_values = n.widgets_values
    ∧ (applyPropertyCorrection n i p).1.widgets = n.widgets := by
  rcases hp : n.properties with _ | props
  · simp [applyPropertyCorrection, hp]
  · rcases hm : props.models with _ | ms
    · simp [applyPropertyCorrection, hp, hm]
    · rcases hg : ms[i]? with _ | pm <;>
        simp [applyPropertyCorrection, hp, hm, List.get?_eq_getElem?, hg]

/-- Replacing a node by one carrying the same id leaves the id sequence of
the graph unchanged. -/
theorem replaceNodeById_map_id (nodes : List GraphNode) (nid : Nat) (n' : GraphNode)
    (h : n'.id = nid) :
    (replaceNodeById nodes nid n').map (fun n => n.id) = nodes.map (fun n => n.id) := by
  induction nodes with
  | nil => rfl
  | cons a rest ih =>
    by_cases ha : a.id = nid
    · simp [replaceNodeById, ha, h]
    · simp [replaceNodeById, ha, ih]

/-- Positions holding a node with a different id are untouched by
`replaceNodeById`. -/
theorem replaceNodeById_getElem_ne (nodes : List GraphNode) (nid : Nat) (n' : GraphNode) :
    ∀ (i : Nat) (n : GraphNode), nodes[i]? = some n → n.id ≠ nid →
      (replaceNodeById nodes nid n')[i]? = some n := by
  induction nodes with
  | nil => intro i n h _; simp at h
  | cons a rest ih =>
    intro i n h hne
    by_cases ha : a.id = nid
    · cases i with
      | zero =>
        simp at h
        exact absurd (h ▸ ha) hne
      | succ j => simpa [replaceNodeById, ha] using h
    · cases i with
      | zero => simpa [replaceNodeById, ha] using h
      | succ j =>
        simp only [List.getElem?_cons_succ] at h
        simpa [replaceNodeById, ha] using ih j n h hne

/-- A found node satisfies the search predicate. -/
theorem getNodeById_some_id (nodes : List GraphNode) (nid : Nat) (n : GraphNode)
    (h : getNodeById nodes (some nid) = some n) : n.id = nid := by
  simp only [getNodeById] at h
  have := List.find?_some h
  simpa using this

/-- One correction step preserves the id sequence of the node list. -/
theorem applyCorrectionStep_map_id (nodes : List GraphNode) (c : Correction) :
    ((applyCorrectionStep nodes c).1).map (fun n => n.id) = nodes.map (fun n => n.id) := by
  rcases hnid : c.node_id with _ | nid
  · simp [applyCorrectionStep, getNodeById, hnid]
  · rcases hf : getNodeById nodes (some nid) with _ | n
    · simp [applyCorrectionStep, hnid, hf]
    · have hn : n.id = nid := getNodeById_some_id nodes nid n hf
      by_cases hw : c.correction_type = some "widget"
      · rcases hi : c.widget_index with _ | i
        · simp [applyCorrectionStep, hnid, hf, hw, hi]
        · simp only [applyCorrectionStep, hnid, hf, hw, hi]
          simp only [reduceIte]
          exact replaceNodeById_map_id nodes nid _ (by rw [applyWidgetCorrection_id]; exact hn)
      · by_cases hp : c.correction_type = some "property"
        · rcases hi : c.property_index with _ | i
          · simp [applyCorrectionStep, hnid, hf, hw, hp, hi]
          · simp only [applyCorrectionStep, hnid, hf, hw, hp, hi, if_neg, reduceIte]
            exact replaceNodeById_map_id nodes nid _
              (by rw [applyPropertyCorrection_id]; exact hn)
        · simp [applyCorrectionStep, hnid, hf, hw, hp]

/-- One correction step leaves every node with a different id untouched. -/
theorem applyCorrectionStep_getElem_ne (nodes : List GraphNode) (c : Correction)
    (i : Nat) (n : GraphNode) (hget : nodes[i]? = some n)
    (hne : c.node_id ≠ some n.id) :
    (applyCorrectionStep nodes c).1[i]? = some n := by
  rcases hnid : c.node_id with _ | nid
  · simp [applyCorrectionStep, getNodeById, hnid, hget]
  · rcases hf : getNodeById nodes (some nid) with _ | m
    · simp [applyCorrectionStep, hnid, hf, hget]
    · have hne' : n.id ≠ nid := fun h => hne (by rw [hnid, h])
      by_cases hw : c.correction_type = some "widget"
      · rcases hi : c.widget_index with _ | j
        · simp [applyCorrectionStep, hnid, hf, hw, hi, hget]
        · simp only [applyCorrectionStep, hnid, hf, hw, hi, reduceIte]
          exact replaceNodeById_getElem_ne nodes nid _ i n hget hne'
      · by_cases hp : c.correction_type = some "property"
        · rcases hi : c.property_index with _ | j
          · simp [applyCorrectionStep, hnid, hf, hw, hp, hi, hget]
          · simp only [applyCorrectionStep, hnid, hf, hw, hp, hi, if_neg, reduceIte]
            exact replaceNodeById_getElem_ne nodes nid _ i n hget hne'
        · simp [applyCorrectionStep, hnid, hf, hw, hp, hget]

/-- A node lookup fails in any list that carries the same id sequence as a
list where it fails. -/
theorem getNodeById_none_congr (nodes1 nodes : List GraphNode) (nid : Option Nat)
    (hids : nodes1.map (fun n => n.id) = nodes.map (fun n => n.id))
    (h : getNodeById nodes nid = none) : getNodeById nodes1 nid = none := by
  rcases nid with _ | i
  · simp [getNodeById]
  · simp only [getNodeById, List.find?_eq_none] at h ⊢
    intro x hx
    have hidmem : x.id ∈ nodes.map (fun n => n.id) := by
      rw [← hids]; exact List.mem_map_of_mem _ hx
    rcases List.mem_map.mp hidmem with ⟨y, hy, hyid⟩
    have hni := h y hy
    simp only [decide_eq_true_eq] at hni ⊢
    rwa [hyid] at hni

/-- A node lookup succeeds in any list that carries the same id sequence
as a list where it succeeds. -/
theorem getNodeById_isSome_congr (nodes1 nodes : List GraphNode) (nid : Option Nat)
    (hids : nodes1.map (fun n => n.id) = nodes.map (fun n => n.id))
    (h : (getNodeById nodes nid).isSome) : (getNodeById nodes1 nid).isSome := by
  rcases hx : getNodeById nodes1 nid with _ | x
  · have hnone := getNodeById_none_congr nodes nodes1 nid hids.symm hx
    rw [hnone] at h
    simp at h
  · simp

/-- A correction whose node is not in the graph is skipped with a
warning. -/
theorem applyCorrectionStep_notFound (nodes : List GraphNode) (c : Correction)
    (h : getNodeById nodes c.node_id = none) :
    applyCorrectionStep nodes c = (nodes, 0, [LogEvent.nodeNotFound c.node_id]) := by
  rcases hnid : c.node_id with _ | nid <;>
    rw [hnid] at h <;> simp [applyCorrectionStep, hnid, h]

/-- A widget correction without `widget_index` is skipped with a
warning. -/
theorem applyCorrectionStep_missingWidget (nodes : List GraphNode) (c : Correction)
    (hsome : (getNodeById nodes c.node_id).isSome)
    (hw : c.correction_type = some "widget") (hi : c.widget_index = none) :
    applyCorrectionStep nodes c = (nodes, 0, [LogEvent.missingWidgetIndex]) := by
  rcases hnid : c.node_id with _ | nid
  · rw [hnid] at hsome; simp [getNodeById] at hsome
  · rw [hnid] at hsome
    rcases hf : getNodeById nodes (some nid) with _ | n
    · rw [hf] at hsome; simp at hsome
    · simp [applyCorrectionStep, hnid, hf, hw, hi]

/-- A property correction without `property_index` is skipped with a
warning. -/
theorem applyCorrectionStep_missingProperty (nodes : List GraphNode) (c : Correction)
    (hsome : (getNodeById nodes c.node_id).isSome)
    (hp : c.correction_type = some "property") (hi : c.property_index = none) :
    applyCorrectionStep nodes c = (nodes, 0, [LogEvent.missingPropertyIndex]) := by
  rcases hnid : c.node_id with _ | nid
  · rw [hnid] at hsome; simp [getNodeById] at hsome
  · rw [hnid] at hsome
    rcases hf : getNodeById nodes (some nid) with _ | n
    · rw [hf] at hsome; simp at hsome
    · simp [applyCorrectionStep, hnid, hf, hp, hi]

/-- A correction that misses its node or its index field changes nothing
and counts as not applied. -/
theorem applyCorrectionStep_ineffective (nodes : List GraphNode) (c : Correction)
    (h : getNodeById nodes c.node_id = none
        ∨ (c.correction_type = some "widget" ∧ c.widget_index = none)
        ∨ (c.correction_type = some "property" ∧ c.property_index = none)) :
    (applyCorrectionStep nodes c).1 = nodes ∧ (applyCorrectionStep nodes c).2.1 = 0 := by
  rcases h with h | ⟨hw, hi⟩ | ⟨hp, hi⟩
  · rw [applyCorrectionStep_notFound nodes c h]; exact ⟨rfl, rfl⟩
  · rcases hsome : getNodeById nodes c.node_id with _ | n
    · rw [applyCorrectionStep_notFound nodes c hsome]; exact ⟨rfl, rfl⟩
    · rw [applyCorrectionStep_missingWidget nodes c (by rw [hsome]; rfl) hw hi]
      exact ⟨rfl, rfl⟩
  · rcases hsome : getNodeById nodes c.node_id with _ | n
    · rw [applyCorrectionStep_notFound nodes c hsome]; exact ⟨rfl, rfl⟩
    · rw [applyCorrectionStep_missingProperty nodes c (by rw [hsome]; rfl) hp hi]
      exact ⟨rfl, rfl⟩

/-- The correction loop preserves the id sequence of the node list. -/
theorem applyCorrectionsList_map_id : ∀ (cs : List Correction) (nodes : List GraphNode),
    ((applyCorrectionsList nodes cs).1).map (fun n => n.id) = nodes.map (fun n => n.id)
  | [], _ => rfl
  | c :: cs, nodes => by
    have h1 := applyCorrectionStep_map_id nodes c
    have h2 := applyCorrectionsList_map_id cs (applyCorrectionStep nodes c).1
    simpa [applyCorrectionsList] using h2.trans h1

/-- The correction loop leaves every node untargeted by the corrections
untouched at its position. -/
theorem applyCorrectionsList_getElem_ne : ∀ (cs : List Correction) (nodes : List GraphNode)
    (i : Nat) (n : GraphNode), nodes[i]? = some n →
    (∀ c ∈ cs, c.node_id ≠ some n.id) →
    (applyCorrectionsList nodes cs).1[i]? = some n
  | [], _, _, _, hget, _ => hget
  | c :: cs, nodes, i, n, hget, hall => by
    have h1 := applyCorrectionStep_getElem_ne nodes c i n hget (hall c (by simp))
    have h2 := applyCorrectionsList_getElem_ne cs (applyCorrectionStep nodes c).1 i n h1
      (fun c' hc' => hall c' (by simp [hc']))
    simpa [applyCorrectionsList] using h2

/-- Every correction whose node is absent from the graph gets its warning
into the loop's console output. -/
theorem applyCorrectionsList_notFound_log : ∀ (cs : List Correction) (nodes : List GraphNode)
    (c : Correction), c ∈ cs → getNodeById nodes c.node_id = none →
    LogEvent.nodeNotFound c.node_id ∈ (applyCorrectionsList nodes cs).2.2
  | [], _, _, hc, _ => absurd hc (List.not_mem_nil _)
  | c0 :: cs, nodes, c, hc, hnone => by
    rcases List.mem_cons.mp hc with rfl | hmem
    · have hstep := applyCorrectionStep_notFound nodes c hnone
      simp [applyCorrectionsList, hstep]
    · have hids := applyCorrectionStep_map_id nodes c0
      have hnone1 : getNodeById (applyCorrectionStep nodes c0).1 c.node_id = none :=
        getNodeById_none_congr _ nodes _ hids hnone
      have ih := applyCorrectionsList_notFound_log cs (applyCorrectionStep nodes c0).1 c hmem hnone1
      simp only [applyCorrectionsList]
      exact List.mem_append_right _ ih

/-- Every widget correction with a present node but no index gets its
warning into the loop's console output. -/
theorem applyCorrectionsList_missingWidget_log :
    ∀ (cs : List Correction) (nodes : List GraphNode) (c : Correction),
    c ∈ cs → (getNodeById nodes c.node_id).isSome →
    c.correction_type = some "widget" → c.widget_index = none →
    LogEvent.missingWidgetIndex ∈ (applyCorrectionsList nodes cs).2.2
  | [], _, _, hc, _, _, _ => absurd hc (List.not_mem_nil _)
  | c0 :: cs, nodes, c, hc, hsome, hw, hi => by
    rcases List.mem_cons.mp hc with rfl | hmem
    · have hstep := applyCorrectionStep_missingWidget nodes c hsome hw hi
      simp [applyCorrectionsList, hstep]
    · have hids := applyCorrectionStep_map_id nodes c0
      have hsome1 := getNodeById_isSome_congr (applyCorrectionStep nodes c0).1 nodes _ hids hsome
      have ih := applyCorrectionsList_missingWidget_log cs (applyCorrectionStep nodes c0).1 c
        hmem hsome1 hw hi
      simp only [applyCorrectionsList]
      exact List.mem_append_right _ ih

/-- Every property correction with a present node but no index gets its
warning into the loop's console output. -/
theorem applyCorrectionsList_missingProperty_log :
    ∀ (cs : List Correction) (nodes : List GraphNode) (c : Correction),
    c ∈ cs → (getNodeById nodes c.node_id).isSome →
    c.correction_type = some "property" → c.property_index = none →
    LogEvent.missingPropertyIndex ∈ (applyCorrectionsList nodes cs).2.2
  | [], _, _, hc, _, _, _ => absurd hc (List.not_mem_nil _)
  | c0 :: cs, nodes, c, hc, hsome, hp, hi => by
    rcases List.mem_cons.mp hc with rfl | hmem
    · have hstep := applyCorrectionStep_missingProperty nodes c hsome hp hi
      simp [applyCorrectionsList, hstep]
    · have hids := applyCorrectionStep_map_id nodes c0
      have hsome1 := getNodeById_isSome_congr (applyCorrectionStep nodes c0).1 nodes _ hids hsome
      have ih := applyCorrectionsList_missingProperty_log cs (applyCorrectionStep nodes c0).1 c
        hmem hsome1 hp hi
      simp only [applyCorrectionsList]
      exact List.mem_append_right _ ih

/-- When every correction misses its node or its index, the loop changes
nothing and applies zero corrections. -/
theorem applyCorrectionsList_ineffective : ∀ (cs : List Correction) (nodes : List GraphNode),
    (∀ c ∈ cs, getNodeById nodes c.node_id = none
       ∨ (c.correction_type = some "widget" ∧ c.widget_index = none)
       ∨ (c.correction_type = some "property" ∧ c.property_index = none)) →
    (applyCorrectionsList nodes cs).1 = nodes ∧ (applyCorrectionsList nodes cs).2.1 = 0
  | [], _, _ => ⟨rfl, rfl⟩
  | c :: cs, nodes, h => by
    have hstep := applyCorrectionStep_ineffective nodes c (h c (by simp))
    have ih := applyCorrectionsList_ineffective cs (applyCorrectionStep nodes c).1
      (fun c' hc' => by rw [hstep.1]; exact h c' (by simp [hc']))
    rw [hstep.1] at ih
    constructor <;> simp [applyCorrectionsList, hstep.1, hstep.2, ih.1, ih.2]

/-- The final node list of `applyCorrectionsToGraph` is the loop's
result, in both the dirty and the no-op branch. -/
theorem applyCorrectionsToGraph_nodes (g : Graph) (cs : List Correction) :
    (applyCorrectionsToGraph g cs).1.nodes = (applyCorrectionsList g.nodes cs).1 := by
  by_cases hc : (applyCorrectionsList g.nodes cs).2.1 > 0 <;>
    simp [applyCorrectionsToGraph, hc]

/-- Loop console output is contained in the output of
`applyCorrectionsToGraph`. -/
theorem applyCorrectionsToGraph_log_mem (g : Graph) (cs : List Correction) (x : LogEvent)
    (h : x ∈ (applyCorrectionsList g.nodes cs).2.2) :
    x ∈ (applyCorrectionsToGraph g cs).2 := by
  by_cases hc : (applyCorrectionsList g.nodes cs).2.1 > 0 <;>
    simp [applyCorrectionsToGraph, hc, h]

/-- Claim C1: for every list of corrections handed to
`applyCorrectionsToGraph`, a correction whose node id is not found in the
host graph, or whose required index field (`widget_index` for widget
corrections, `property_index` for property corrections) is missing, is
logged and skipped; the call is total (the whole body sits in a
`try/catch`, so it never throws), the graph keeps exactly its nodes (same
id sequence), nodes not targeted by any correction are untouched, and a
list made only of such skipped corrections leaves the graph — including
its dirty flags — exactly as it was. -/
theorem applyCorrectionsToGraph_skips_absent_and_missing (g : Graph) (cs : List Correction) :
    ((applyCorrectionsToGraph g cs).1.nodes.map (fun n => n.id)
        = g.nodes.map (fun n => n.id))
    ∧ (∀ (i : Nat) (n : GraphNode), g.nodes[i]? = some n →
        (∀ c ∈ cs, c.node_id ≠ some n.id) →
        (applyCorrectionsToGraph g cs).1.nodes[i]? = some n)
    ∧ (∀ c ∈ cs, getNodeById g.nodes c.node_id = none →
        LogEvent.nodeNotFound c.node_id ∈ (applyCorrectionsToGraph g cs).2)
    ∧ (∀ c ∈ cs, (getNodeById g.nodes c.node_id).isSome →
        c.correction_type = some "widget" → c.widget_index = none →
        LogEvent.missingWidgetIndex ∈ (applyCorrectionsToGraph g cs).2)
    ∧ (∀ c ∈ cs, (getNodeById g.nodes c.node_id).isSome →
        c.correction_type = some "property" → c.property_index = none →
        LogEvent.missingPropertyIndex ∈ (applyCorrectionsToGraph g cs).2)
    ∧ ((∀ c ∈ cs, getNodeById g.nodes c.node_id = none
          ∨ (c.correction_type = some "widget" ∧ c.widget_index = none)
          ∨ (c.correction_type = some "property" ∧ c.property_index = none)) →
        (applyCorrectionsToGraph g cs).1 = g) := by
  refine ⟨?_, ?_, ?_, ?_, ?_, ?_⟩
  · rw [applyCorrectionsToGraph_nodes]
    exact applyCorrectionsList_map_id cs g.nodes
  · intro i n hget hall
    rw [applyCorrectionsToGraph_nodes]
    exact applyCorrectionsList_getElem_ne cs g.nodes i n hget hall
  · intro c hc hnone
    exact applyCorrectionsToGraph_log_mem g cs _
      (applyCorrectionsList_notFound_log cs g.nodes c hc hnone)
  · intro c hc hsome hw hi
    exact applyCorrectionsToGraph_log_mem g cs _
      (applyCorrectionsList_missingWidget_log cs g.nodes c hc hsome hw hi)
  · intro c hc hsome hp hi
    exact applyCorrectionsToGraph_log_mem g cs _
      (applyCorrectionsList_missingProperty_log cs g.nodes c hc hsome hp hi)
  · intro hall
    have hin := applyCorrectionsList_ineffective cs g.nodes hall
    simp [applyCorrectionsToGraph, hin.1, hin.2]

/-- A node with populated widget and property data, for concrete
instances. -/
def c1NodeOne : GraphNode :=
  { id := 1
    ntype := "CheckpointLoaderSimple"
    widgets_values := some [some "old.safetensors"]
    widgets := some [{ value := "old.safetensors" }]
    properties := some { models := some [{ name := "old.safetensors", url := "u" }] } }

/-- A bare node, for concrete instances. -/
def c1NodeNine : GraphNode :=
  { id := 9, ntype := "LoraLoader", widgets_values := none, widgets := none, properties := none }

/-- A two-node host graph, for concrete instances. -/
def c1HostGraph : Graph :=
  { nodes := [c1NodeOne, c1NodeNine], dirtyCanvas := false, changeCalled := false }

/-- A correction aimed at an id absent from `c1HostGraph`. -/
def c1Absent : Correction :=
  { node_id := some 2, correction_type := some "widget", widget_index := some 0,
    property_index := none, new_path := "fixed.safetensors" }

/-- A widget correction without its index field. -/
def c1NoWidgetIndex : Correction :=
  { node_id := some 1, correction_type := some "widget", widget_index := none,
    property_index := none, new_path := "fixed.safetensors" }

/-- A property correction without its index field. -/
def c1NoPropertyIndex : Correction :=
  { node_id := some 1, correction_type := some "property", widget_index := none,
    property_index := none, new_path := "fixed.safetensors" }

/-- The skipped corrections of the C1 instance. -/
def c1Corrections : List Correction := [c1Absent, c1NoWidgetIndex, c1NoPropertyIndex]

/-- Concrete instance of the skip-and-log behaviour: an absent node and
two missing-index corrections are all logged and leave the graph
unchanged. -/
theorem applyCorrectionsToGraph_skips_absent_and_missing_witness :
    (applyCorrectionsToGraph c1HostGraph c1Corrections).1.nodes.map (fun n => n.id)
        = c1HostGraph.nodes.map (fun n => n.id)
    ∧ (applyCorrectionsToGraph c1HostGraph c1Corrections).1.nodes[1]? = some c1NodeNine
    ∧ LogEvent.nodeNotFound (some 2) ∈ (applyCorrectionsToGraph c1HostGraph c1Corrections).2
    ∧ LogEvent.missingWidgetIndex ∈ (applyCorrectionsToGraph c1HostGraph c1Corrections).2
    ∧ LogEvent.missingPropertyIndex ∈ (applyCorrectionsToGraph c1HostGraph c1Corrections).2
    ∧ (applyCorrectionsToGraph c1HostGraph c1Corrections).1 = c1HostGraph := by
  have h := applyCorrectionsToGraph_skips_absent_and_missing c1HostGraph c1Corrections
  exact ⟨h.1,
    h.2.1 1 c1NodeNine (by decide) (by decide),
    h.2.2.1 c1Absent (by decide) (by decide),
    h.2.2.2.1 c1NoWidgetIndex (by decide) (by decide) (by decide) (by decide),
    h.2.2.2.2.1 c1NoPropertyIndex (by decide) (by decide) (by decide) (by decide),
    h.2.2.2.2.2 (by decide)⟩

/-- After replacing the found node by one with the same id, the lookup
returns the replacement. -/
theorem find?_replaceNodeById (nodes : List GraphNode) (nid : Nat) (n' : GraphNode)
    (hsome : (nodes.find? (fun x => x.id = nid)).isSome) (h' : n'.id = nid) :
    (replaceNodeById nodes nid n').find? (fun x => x.id = nid) = some n' := by
  induction nodes with
  | nil => simp at hsome
  | cons a rest ih =>
    by_cases ha : a.id = nid
    · simp [replaceNodeById, ha, List.find?_cons_of_pos, h']
    · have hrest : (rest.find? (fun x => x.id = nid)).isSome := by
        simpa [List.find?_cons_of_neg, ha] using hsome
      simpa [replaceNodeById, ha, List.find?_cons_of_neg] using ih hrest

/-- When the targeted `widgets_values` entry is defined, the widget
correction rewrites it and counts as applied. -/
theorem applyWidgetCorrection_applied (n : GraphNode) (i : Nat) (p : String)
    (ws : List (Option String)) (oldValue : String)
    (hws : n.widgets_values = some ws) (hget : ws.get? i = some (some oldValue)) :
    (applyWidgetCorrection n i p).1.widgets_values = some (ws.set i (some p))
    ∧ (applyWidgetCorrection n i p).2.1 = 1 := by
  rw [List.get?_eq_getElem?] at hget
  constructor <;> simp [applyWidgetCorrection, hws, List.get?_eq_getElem?, hget]

/-- When the targeted `properties.models` entry exists, the property
correction rewrites its name and counts as applied. -/
theorem applyPropertyCorrection_applied (n : GraphNode) (i : Nat) (p : String)
    (props : NodeProperties) (ms : List PropModel) (pm : PropModel)
    (hp : n.properties = some props) (hm : props.models = some ms)
    (hget : ms.get? i = some pm) :
    (applyPropertyCorrection n i p).1.properties
        = some { props with models := some (ms.set i { pm with name := p }) }
    ∧ (applyPropertyCorrection n i p).2.1 = 1 := by
  rw [List.get?_eq_getElem?] at hget
  constructor <;> simp [applyPropertyCorrection, hp, hm, List.get?_eq_getElem?, hget]

/-- Step equation for an applied widget correction. -/
theorem applyCorrectionStep_widget_applied (nodes : List GraphNode) (c : Correction)
    (nid : Nat) (n : GraphNode) (ws : List (Option String)) (i : Nat) (oldValue : String)
    (hnid : c.node_id = some nid) (hf : getNodeById nodes (some nid) = some n)
    (hw : c.correction_type = some "widget") (hi : c.widget_index = some i)
    (hws : n.widgets_values = some ws) (hget : ws.get? i = some (some oldValue)) :
    (applyCorrectionStep nodes c).1
        = replaceNodeById nodes nid (applyWidgetCorrection n i c.new_path).1
    ∧ (applyCorrectionStep nodes c).2.1 = 1 := by
  have happ := applyWidgetCorrection_applied n i c.new_path ws oldValue hws hget
  constructor <;> simp [applyCorrectionStep, hnid, hf, hw, hi, happ.2]

/-- Step equation for an applied property correction. -/
theorem applyCorrectionStep_property_applied (nodes : List GraphNode) (c : Correction)
    (nid : Nat) (n : GraphNode) (props : NodeProperties) (ms : List PropModel)
    (i : Nat) (pm : PropModel)
    (hnid : c.node_id = some nid) (hf : getNodeById nodes (some nid) = some n)
    (hp : c.correction_type = some "property") (hi : c.property_index = some i)
    (hprops : n.properties = some props) (hm : props.models = some ms)
    (hget : ms.get? i = some pm) :
    (applyCorrectionStep nodes c).1
        = replaceNodeById nodes nid (applyPropertyCorrection n i c.new_path).1
    ∧ (applyCorrectionStep nodes c).2.1 = 1 := by
  have happ := applyPropertyCorrection_applied n i c.new_path props ms pm hprops hm hget
  constructor <;> simp [applyCorrectionStep, hnid, hf, hp, hi, happ.2]

/-- Claim C2: for a correction whose target node exists and whose indexed
entry exists, `applyCorrectionsToGraph` overwrites exactly the specified
value — `widgets_values[widget_index]` for widget corrections,
`properties.models[property_index].name` for property corrections — with
the correction's `new_path`, and afterwards marks the graph dirty for
persistence (`setDirtyCanvas` and `change` are called). -/
theorem applyCorrectionsToGraph_overwrites_target (g : Graph) (c : Correction) :
    (∀ (nid : Nat) (n : GraphNode) (ws : List (Option String)) (i : Nat) (oldValue : String),
      c.node_id = some nid →
      getNodeById g.nodes (some nid) = some n →
      c.correction_type = some "widget" →
      c.widget_index = some i →
      n.widgets_values = some ws →
      ws.get? i = some (some oldValue) →
      ∃ n', getNodeById (applyCorrectionsToGraph g [c]).1.nodes (some nid) = some n'
        ∧ n'.widgets_values = some (ws.set i (some c.new_path))
        ∧ n'.properties = n.properties
        ∧ n'.id = n.id
        ∧ (applyCorrectionsToGraph g [c]).1.dirtyCanvas = true
        ∧ (applyCorrectionsToGraph g [c]).1.changeCalled = true)
    ∧ (∀ (nid : Nat) (n : GraphNode) (props : NodeProperties) (ms : List PropModel)
        (i : Nat) (pm : PropModel),
      c.node_id = some nid →
      getNodeById g.nodes (some nid) = some n →
      c.correction_type = some "property" →
      c.property_index = some i →
      n.properties = some props →
      props.models = some ms →
      ms.get? i = some pm →
      ∃ n', getNodeById (applyCorrectionsToGraph g [c]).1.nodes (some nid) = some n'
        ∧ n'.properties
            = some { props with models := some (ms.set i { pm with name := c.new_path }) }
        ∧ n'.widgets_values = n.widgets_values
        ∧ n'.widgets = n.widgets
        ∧ n'.id = n.id
        ∧ (applyCorrectionsToGraph g [c]).1.dirtyCanvas = true
        ∧ (applyCorrectionsToGraph g [c]).1.changeCalled = true) := by
  constructor
  · intro nid n ws i oldValue hnid hf hw hi hws hget
    have happ := applyWidgetCorrection_applied n i c.new_path ws oldValue hws hget
    have hstep := applyCorrectionStep_widget_applied g.nodes c nid n ws i oldValue
      hnid hf hw hi hws hget
    have hlist1 : (applyCorrectionsList g.nodes [c]).1 = (applyCorrectionStep g.nodes c).1 := by
      simp [applyCorrectionsList]
    have hcnt : (applyCorrectionsList g.nodes [c]).2.1 = 1 := by
      simpa [applyCorrectionsList] using hstep.2
    have hnodes : (applyCorrectionsToGraph g [c]).1.nodes
        = replaceNodeById g.nodes nid (applyWidgetCorrection n i c.new_path).1 := by
      rw [applyCorrectionsToGraph_nodes, hlist1, hstep.1]
    have hnat : n.id = nid := getNodeById_some_id g.nodes nid n hf
    have hid' : (applyWidgetCorrection n i c.new_path).1.id = nid := by
      rw [applyWidgetCorrection_id]; exact hnat
    have hsome : (g.nodes.find? (fun x => x.id = nid)).isSome := by
      simp only [getNodeById] at hf
      rw [hf]; rfl
    refine ⟨(applyWidgetCorrection n i c.new_path).1, ?_, happ.1,
      applyWidgetCorrection_properties n i c.new_path, ?_, ?_, ?_⟩
    · rw [hnodes]
      simp only [getNodeById]
      exact find?_replaceNodeById g.nodes nid _ hsome hid'
    · rw [applyWidgetCorrection_id]
    · simp [applyCorrectionsToGraph, hcnt]
    · simp [applyCorrectionsToGraph, hcnt]
  · intro nid n props ms i pm hnid hf hp hi hprops hm hget
    have happ := applyPropertyCorrection_applied n i c.new_path props ms pm hprops hm hget
    have hstep := applyCorrectionStep_property_applied g.nodes c nid n props ms i pm
      hnid hf hp hi hprops hm hget
    have hlist1 : (applyCorrectionsList g.nodes [c]).1 = (applyCorrectionStep g.nodes c).1 := by
      simp [applyCorrectionsList]
    have hcnt : (applyCorrectionsList g.nodes [c]).2.1 = 1 := by
      simpa [applyCorrectionsList] using hstep.2
    have hnodes : (applyCorrectionsToGraph g [c]).1.nodes
        = replaceNodeById g.nodes nid (applyPropertyCorrection n i c.new_path).1 := by
      rw [applyCorrectionsToGraph_nodes, hlist1, hstep.1]
    have hnat : n.id = nid := getNodeById_some_id g.nodes nid n hf
    have hid' : (applyPropertyCorrection n i c.new_path).1.id = nid := by
      rw [applyPropertyCorrection_id]; exact hnat
    have hsome : (g.nodes.find? (fun x => x.id = nid)).isSome := by
      simp only [getNodeById] at hf
      rw [hf]; rfl
    refine ⟨(applyPropertyCorrection n i c.new_path).1, ?_, happ.1,
      (applyPropertyCorrection_widgets n i c.new_path).1,
      (applyPropertyCorrection_widgets n i c.new_path).2, ?_, ?_, ?_⟩
    · rw [hnodes]
      simp only [getNodeById]
      exact find?_replaceNodeById g.nodes nid _ hsome hid'
    · rw [applyPropertyCorrection_id]
    · simp [applyCorrectionsToGraph, hcnt]
    · simp [applyCorrectionsToGraph, hcnt]

/-- A widget correction aimed at the populated node. -/
def c2Widget : Correction :=
  { node_id := some 1, correction_type := some "widget", widget_index := some 0,
    property_index := none, new_path := "fixed.safetensors" }

/-- A property correction aimed at the populated node. -/
def c2Property : Correction :=
  { node_id := some 1, correction_type := some "property", widget_index := none,
    property_index := some 0, new_path := "fixed.safetensors" }

/-- Concrete instance of the overwrite behaviour for both correction
kinds. -/
theorem applyCorrectionsToGraph_overwrites_target_witness :
    (∃ n', getNodeById (applyCorrectionsToGraph c1HostGraph [c2Widget]).1.nodes (some 1)
          = some n'
        ∧ n'.widgets_values = some [some "fixed.safetensors"]
        ∧ n'.properties = c1NodeOne.properties
        ∧ n'.id = 1
        ∧ (applyCorrectionsToGraph c1HostGraph [c2Widget]).1.dirtyCanvas = true
        ∧ (applyCorrectionsToGraph c1HostGraph [c2Widget]).1.changeCalled = true)
    ∧ (∃ n', getNodeById (applyCorrectionsToGraph c1HostGraph [c2Property]).1.nodes (some 1)
          = some n'
        ∧ n'.properties = some { models := some [{ name := "fixed.safetensors", url := "u" }] }
        ∧ n'.widgets_values = c1NodeOne.widgets_values
        ∧ n'.widgets = c1NodeOne.widgets
        ∧ n'.id = 1
        ∧ (applyCorrectionsToGraph c1HostGraph [c2Property]).1.dirtyCanvas = true
        ∧ (applyCorrectionsToGraph c1HostGraph [c2Property]).1.changeCalled = true) := by
  constructor
  · exact (applyCorrectionsToGraph_overwrites_target c1HostGraph c2Widget).1
      1 c1NodeOne [some "old.safetensors"] 0 "old.safetensors"
      (by decide) (by decide) (by decide) (by decide) (by decide) (by decide)
  · exact (applyCorrectionsToGraph_overwrites_target c1HostGraph c2Property).2
      1 c1NodeOne { models := some [{ name := "old.safetensors", url := "u" }] }
      [{ name := "old.safetensors", url := "u" }] 0 { name := "old.safetensors", url := "u" }
      (by decide) (by decide) (by decide) (by decide) (by decide) (by decide) (by decide)

/-- A URL-bearing missing model, for concrete instances. -/
def c4Model : MissingModel :=
  { mkModel "modelA" with url := some "https://host/file.safetensors" }

/-- The rendered card of `c4Model` with its download button disabled. -/
def c4DisabledUI : ModelUI :=
  { initialModelUI c4Model with
      button := { (initialModelUI c4Model).button with disabled := true } }

/-- Dialog state with one URL-bearing model whose button is disabled. -/
def c4State : DialogState :=
  { initDialogState emptyHostGraph with
      missingModels := [c4Model]
      modelUIs := [("modelA", c4DisabledUI)] }

/-- Counterexample to claim C4 as stated: `c4Model` is eligible (its url
is non-empty after trimming) yet `downloadAllModels` initiates no
download for it, because its download button is disabled. -/
theorem downloadAllModels_skips_disabled_counterexample :
    c4State.missingModels.filter (fun m => modelHasUrl m) = [c4Model]
    ∧ (downloadAllModels c4State).2 = [] := by
  constructor <;> decide

/-- Claim C4 (amended): `downloadAllModels` initiates a download exactly
for the models in `missingModels` whose url is non-empty after trimming
and whose rendered download button exists and is not disabled; when no
model in `missingModels` has such a URL, it only posts a warning status
message and starts nothing. -/
theorem downloadAllModels_starts_enabled_url_models (st : DialogState) :
    (∀ m : MissingModel, m ∈ (downloadAllModels st).2 ↔
      (m ∈ st.missingModels ∧ modelHasUrl m = true ∧
        ∃ p, st.modelUIs.find? (fun q => q.1 = m.name) = some p
          ∧ p.2.button.disabled = false))
    ∧ (st.missingModels.filter (fun m => modelHasUrl m) = [] →
        downloadAllModels st
          = (updateStatus st "No models with URLs to download" StatusType.warning, [])) := by
  constructor
  · intro m
    by_cases he : (st.missingModels.filter (fun m => modelHasUrl m)).length = 0
    · rw [List.length_eq_zero] at he
      simp only [downloadAllModels, he]
      constructor
      · intro h; simp at h
      · rintro ⟨hmem, hurl, _⟩
        have hmf : m ∈ st.missingModels.filter (fun m => modelHasUrl m) :=
          List.mem_filter.mpr ⟨hmem, hurl⟩
        rw [he] at hmf
        simp at hmf
    · simp only [downloadAllModels, if_neg he]
      rw [List.mem_filter, List.mem_filter]
      simp only [updateStatus]
      constructor
      · rintro ⟨⟨hmem, hurl⟩, hbtn⟩
        refine ⟨hmem, hurl, ?_⟩
        rcases hfind : st.modelUIs.find? (fun q => q.1 = m.name) with _ | p
        · rw [hfind] at hbtn; simp at hbtn
        · refine ⟨p, hfind, ?_⟩
          rw [hfind] at hbtn
          simpa using hbtn
      · rintro ⟨hmem, hurl, p, hfind, hdis⟩
        refine ⟨⟨hmem, hurl⟩, ?_⟩
        rw [hfind]
        simpa using hdis
  · intro he
    simp [downloadAllModels, he]

/-- Concrete instance of the amended batch-download behaviour: with one
enabled URL-bearing model, exactly that model is started; with no
URL-bearing model, only the warning is posted. -/
theorem downloadAllModels_starts_enabled_url_models_witness :
    (c4Model ∈ (downloadAllModels { c4State with
        modelUIs := [("modelA", initialModelUI c4Model)] }).2)
    ∧ downloadAllModels (initDialogState emptyHostGraph)
        = (updateStatus (initDialogState emptyHostGraph)
            "No models with URLs to download" StatusType.warning, []) :=
  ⟨((downloadAllModels_starts_enabled_url_models _).1 c4Model).mpr
      ⟨by decide, by decide, ⟨("modelA", initialModelUI c4Model), by decide, by decide⟩⟩,
   (downloadAllModels_starts_enabled_url_models _).2 (by decide)⟩

/-- A HuggingFace suggestion entry, for concrete instances. -/
def c9Suggestion : Suggestion :=
  { download_url := some "https://host/alt.safetensors"
    expected_filename := none
    actual_filename := some "alt.safetensors" }

/-- A model without URL but with one suggestion match. -/
def c9Model : MissingModel :=
  { mkModel "mystery.ckpt" with search_suggestions := [c9Suggestion] }

/-- Counterexample to claim C9 as stated: this URL-less model renders its
action button labelled `Select Match`, not `No URL` (it is still
disabled). -/
theorem createModelCardButton_select_match_counterexample :
    modelHasUrl c9Model = false
    ∧ (createModelCardButton c9Model).text = "Select Match"
    ∧ (createModelCardButton c9Model).text ≠ "No URL"
    ∧ (createModelCardButton c9Model).disabled = true := by
  refine ⟨by decide, by decide, by decide, by decide⟩

/-- Claim C9 (amended): for every model whose url is absent or blank after
trimming, `createModelCard` renders the action button disabled; its label
is `No URL` when the model offers no suggestion matches and
`Select Match` when suggestions exist without an exact HuggingFace
match. -/
theorem createModelCardButton_no_url_amended (m : MissingModel)
    (h : modelHasUrl m = false) :
    (createModelCardButton m).disabled = true
    ∧ (createModelCardButton m).text
        = (if modelHasSuggestionMatches m = true then "Select Match" else "No URL") := by
  constructor <;> simp [createModelCardButton, updateDownloadButtonState, h]

/-- Concrete instance of the amended no-URL button behaviour. -/
theorem createModelCardButton_no_url_amended_witness :
    modelHasUrl (mkModel "plain.ckpt") = false
    ∧ (createModelCardButton (mkModel "plain.ckpt")).disabled = true
    ∧ (createModelCardButton (mkModel "plain.ckpt")).text
        = (if modelHasSuggestionMatches (mkModel "plain.ckpt") = true
           then "Select Match" else "No URL") := by
  have h := createModelCardButton_no_url_amended (mkModel "plain.ckpt") (by decide)
  exact ⟨by decide, h.1, h.2⟩

/-- In-place overwrite of an association-list entry is found by key. -/
theorem find?_map_overwrite (l : List (String × ModelUI)) (name : String) (ui : ModelUI)
    (h : l.any (fun p => p.1 = name) = true) :
    (l.map (fun p => if p.1 = name then (name, ui) else p)).find? (fun p => p.1 = name)
      = some (name, ui) := by
  induction l with
  | nil => simp at h
  | cons a l ih =>
    by_cases ha : a.1 = name
    · simp [ha]
    · have h' : l.any (fun p => p.1 = name) = true := by simpa [ha] using h
      simpa [ha] using ih h'

/-- An appended association-list entry is found by key when the key was
absent. -/
theorem find?_append_new (l : List (String × ModelUI)) (name : String) (ui : ModelUI)
    (h : l.any (fun p => p.1 = name) = false) :
    (l ++ [(name, ui)]).find? (fun p => p.1 = name) = some (name, ui) := by
  induction l with
  | nil => simp
  | cons a l ih =>
    have ha : ¬ a.1 = name := by
      intro hc
      simp [hc] at h
    have h' : l.any (fun p => p.1 = name) = false := by simpa [ha] using h
    simpa [ha] using ih h'

/-- Reading back the UI just stored for a model returns it. -/
theorem getModelUI_setModelUI (st : DialogState) (name : String) (ui : ModelUI) :
    getModelUI (setModelUI st name ui) name = ui := by
  unfold getModelUI setModelUI
  cases hany : st.modelUIs.any (fun p => p.1 = name) with
  | true => simp [hany, find?_map_overwrite st.modelUIs name ui hany]
  | false => simp [hany, find?_append_new st.modelUIs name ui hany]

/-- `setModelUI` touches only the `modelUIs` field. -/
theorem setModelUI_downloadingModels (st : DialogState) (name : String) (ui : ModelUI) :
    (setModelUI st name ui).downloadingModels = st.downloadingModels := by
  unfold setModelUI; split <;> rfl

/-- `setModelUI` leaves the console log alone. -/
theorem setModelUI_consoleLog (st : DialogState) (name : String) (ui : ModelUI) :
    (setModelUI st name ui).consoleLog = st.consoleLog := by
  unfold setModelUI; split <;> rfl

/-- `setModelUI` leaves the status-bar history alone. -/
theorem setModelUI_statusLog (st : DialogState) (name : String) (ui : ModelUI) :
    (setModelUI st name ui).statusLog = st.statusLog := by
  unfold setModelUI; split <;> rfl

/-- `setModelUI` leaves the freeze flag alone. -/
theorem setModelUI_uiFrozen (st : DialogState) (name : String) (ui : ModelUI) :
    (setModelUI st name ui).uiFrozen = st.uiFrozen := by
  unfold setModelUI; split <;> rfl

/-- The scan-progress poll callback never touches the status bar. -/
theorem scanProgressOnUpdate_statusLog (st : DialogState) (d : ScanProgressData) :
    (scanProgressOnUpdate st d).statusLog = st.statusLog := by
  unfold scanProgressOnUpdate updateScanProgress
  by_cases h : d.status = "success"
  · rcases hp : d.progress with _ | inner
    · simp [h, hp]
    · rcases hc : inner.current with _ | cur <;> simp [h, hp, hc]
  · simp [h]

/-- The whole scan-progress poll never touches the status bar. -/
theorem scanPollRun_statusLog : ∀ (ticks : List (FetchTick ScanProgressData)) (st : DialogState),
    (pollEndpointRun scanProgressOnUpdate (fun _ => false) scanProgressPollOnError
      st ticks).statusLog = st.statusLog
  | [], _ => rfl
  | FetchTick.httpError _ :: _, _ => rfl
  | FetchTick.exn msg :: ts, st => by
    have ih := scanPollRun_statusLog ts (scanProgressPollOnError st msg)
    simpa [pollEndpointRun, scanProgressPollOnError] using ih
  | FetchTick.ok d :: ts, st => by
    have h1 := scanProgressOnUpdate_statusLog st d
    have ih := scanPollRun_statusLog ts (scanProgressOnUpdate st d)
    simp only [pollEndpointRun, Bool.false_eq_true, if_false]
    rw [ih, h1]

/-- What the catch block of `downloadModel` leaves behind. -/
theorem downloadModelCatch_ui (st : DialogState) (m : MissingModel) (msg : String) :
    (getModelUI (downloadModelCatch st m msg) m.name).button.text = "Retry"
    ∧ (getModelUI (downloadModelCatch st m msg) m.name).button.disabled = false
    ∧ (getModelUI (downloadModelCatch st m msg) m.name).statusText = "Error: " ++ msg
    ∧ (getModelUI (downloadModelCatch st m msg) m.name).statusVisible = true
    ∧ (downloadModelCatch st m msg).consoleLog = st.consoleLog ++ [LogEvent.downloadError msg]
    ∧ (downloadModelCatch st m msg).statusLog = st.statusLog
    ∧ (downloadModelCatch st m msg).downloadingModels = setDelete st.downloadingModels m.name := by
  unfold downloadModelCatch
  refine ⟨?_, ?_, ?_, ?_, ?_, ?_, ?_⟩ <;>
    simp [getModelUI_setModelUI, setModelUI_consoleLog, setModelUI_statusLog,
      setModelUI_downloadingModels]

/-- Unfolding of the failed-request branch of `downloadModel`. -/
theorem downloadModel_httpError_eq (st : DialogState) (m : MissingModel)
    (code : Nat) (text : String) (h : m.name ∉ st.downloadingModels) :
    downloadModel st m (DownloadResult.httpError code text)
      = (downloadModelCatch
          (setModelUI { st with downloadingModels := setAdd st.downloadingModels m.name }
            m.name
            { getModelUI { st with downloadingModels := setAdd st.downloadingModels m.name }
                m.name with
              button := { (getModelUI
                  { st with downloadingModels := setAdd st.downloadingModels m.name }
                  m.name).button with disabled := true, text := "Downloading..." }
              progressVisible := true
              statusVisible := true
              statusText := "Starting download..."
              statusColor := "#aaa" })
          m ("HTTP " ++ toString code ++ ": " ++ text),
        [Request.download m.name], false) := by
  unfold downloadModel
  rw [if_neg h]

/-- Counterexample to claim C7 as stated: a failing
`/download-missing/folders` call is not surfaced as a status-bar message —
an HTTP-error response is not even logged (the dialog state is returned
completely unchanged), and a thrown fetch error is logged but posts
nothing to the status bar. -/
theorem backend_failure_not_surfaced_counterexample :
    loadAvailableFolders (initDialogState emptyHostGraph) (FoldersResult.httpError 500)
        = initDialogState emptyHostGraph
    ∧ (loadAvailableFolders (initDialogState emptyHostGraph)
          (FoldersResult.networkError "network down")).statusLog = []
    ∧ (loadAvailableFolders (initDialogState emptyHostGraph)
          (FoldersResult.networkError "network down")).consoleLog
        = [LogEvent.folderLoadError "network down"] :=
  ⟨rfl, rfl, rfl⟩

/-- Claim C7 (amended): failing scan requests are caught, logged and
surfaced in the status bar; failing download requests are caught, logged
and surfaced in the per-model status text with the button relabelled
`Retry` (nothing is posted to the status bar); folder-loading failures
are only logged (HTTP-error responses are silently ignored); and no code
path retries a failed request — a download failure issues exactly the one
download request and starts no poll, and a failed status poll stops at
once with only a console log, never consuming further ticks. -/
theorem backend_failure_handling_amended :
    (∀ (st : DialogState) (ticks : List (FetchTick ScanProgressData)) (msg : String),
      (scanWorkflow st ticks (ScanResult.networkError msg)).1.statusLog
          = st.statusLog ++ [("Error scanning workflow: " ++ msg, StatusType.error)]
      ∧ LogEvent.scanError msg
          ∈ (scanWorkflow st ticks (ScanResult.networkError msg)).1.consoleLog)
    ∧ (∀ (st : DialogState) (m : MissingModel) (code : Nat) (text : String),
        m.name ∉ st.downloadingModels →
        (downloadModel st m (DownloadResult.httpError code text)).2.1
            = [Request.download m.name]
        ∧ (downloadModel st m (DownloadResult.httpError code text)).2.2 = false
        ∧ (getModelUI (downloadModel st m (DownloadResult.httpError code text)).1
            m.name).button.text = "Retry"
        ∧ (getModelUI (downloadModel st m (DownloadResult.httpError code text)).1
            m.name).statusText = "Error: HTTP " ++ toString code ++ ": " ++ text
        ∧ LogEvent.downloadError ("HTTP " ++ toString code ++ ": " ++ text)
            ∈ (downloadModel st m (DownloadResult.httpError code text)).1.consoleLog
        ∧ (downloadModel st m (DownloadResult.httpError code text)).1.statusLog
            = st.statusLog)
    ∧ (∀ (st : DialogState) (msg : String) (code : Nat),
        loadAvailableFolders st (FoldersResult.networkError msg)
          = { st with consoleLog := st.consoleLog ++ [LogEvent.folderLoadError msg] }
        ∧ loadAvailableFolders st (FoldersResult.httpError code) = st)
    ∧ (∀ (st : DialogState) (m : MissingModel) (code : Nat)
        (ts : List (FetchTick StatusData)),
        runPollProgress st m (FetchTick.httpError code :: ts)
          = { st with consoleLog :=
                st.consoleLog ++ [LogEvent.pollError ("HTTP " ++ toString code)] }) := by
  refine ⟨?_, ?_, ?_, ?_⟩
  · intro st ticks msg
    have heq : (scanWorkflow st ticks (ScanResult.networkError msg)).1
        = scanWorkflowCatch (pollEndpointRun scanProgressOnUpdate (fun _ => false)
            scanProgressPollOnError (showScanProgress st) ticks) msg := rfl
    rw [heq]
    constructor
    · simp [scanWorkflowCatch, updateStatus, scanPollRun_statusLog, showScanProgress]
    · simp [scanWorkflowCatch, updateStatus]
  · intro st m code text h
    rw [downloadModel_httpError_eq st m code text h]
    have hc := downloadModelCatch_ui
      (setModelUI { st with downloadingModels := setAdd st.downloadingModels m.name }
        m.name
        { getModelUI { st with downloadingModels := setAdd st.downloadingModels m.name }
            m.name with
          button := { (getModelUI
              { st with downloadingModels := setAdd st.downloadingModels m.name }
              m.name).button with disabled := true, text := "Downloading..." }
          progressVisible := true
          statusVisible := true
          statusText := "Starting download..."
          statusColor := "#aaa" })
      m ("HTTP " ++ toString code ++ ": " ++ text)
    refine ⟨rfl, rfl, hc.1, hc.2.2.1, ?_, ?_⟩
    · rw [hc.2.2.2.2.1, setModelUI_consoleLog]
      simp
    · rw [hc.2.2.2.2.2.1, setModelUI_statusLog]
  · intro st msg code
    exact ⟨rfl, rfl⟩
  · intro st m code ts
    rfl

/-- Concrete instance of the amended failure handling. -/
theorem backend_failure_handling_amended_witness :
    (scanWorkflow (initDialogState emptyHostGraph) [] (ScanResult.networkError "boom")).1.statusLog
        = [("Error scanning workflow: boom", StatusType.error)]
    ∧ (downloadModel (initDialogState emptyHostGraph) (mkModel "modelA")
          (DownloadResult.httpError 500 "Server Error")).2.1 = [Request.download "modelA"]
    ∧ (getModelUI (downloadModel (initDialogState emptyHostGraph) (mkModel "modelA")
          (DownloadResult.httpError 500 "Server Error")).1 "modelA").button.text = "Retry" := by
  have h1 := backend_failure_handling_amended.1 (initDialogState emptyHostGraph) [] "boom"
  have h2 := backend_failure_handling_amended.2.1 (initDialogState emptyHostGraph)
    (mkModel "modelA") 500 "Server Error" (by decide)
  exact ⟨by simpa using h1.1, h2.1, h2.2.2.1⟩

/-- Claim C8: closing the dialog issues exactly one fire-and-forget
`POST /download-missing/cancel` carrying each downloading model's name
(one request per member of the set, which is duplicate-free), failures of
those requests are only logged, and `downloadingModels` is empty once
`close` returns. -/
theorem closeDialog_cancels_each_download (st : DialogState) :
    (closeDialog st).2 = st.downloadingModels.map (fun name => Request.cancel name)
    ∧ (closeDialog st).1.downloadingModels = []
    ∧ (st.downloadingModels.Nodup →
        ∀ name ∈ st.downloadingModels,
          (closeDialog st).2.count (Request.cancel name) = 1)
    ∧ (∀ (st' : DialogState) (msg : String),
        handleCancelError st' msg
          = { st' with consoleLog := st'.consoleLog ++ [LogEvent.cancelError msg] }) := by
  refine ⟨rfl, rfl, ?_, fun _ _ => rfl⟩
  intro hnodup name hmem
  have hinj : Function.Injective (fun name => Request.cancel name) := by
    intro a b hab
    exact Request.cancel.inj hab
  show (st.downloadingModels.map (fun name => Request.cancel name)).count
      (Request.cancel name) = 1
  rw [List.count_map_of_injective _ _ hinj]
  exact List.count_eq_one_of_mem hnodup hmem

/-- Concrete instance of the close-time cancellation behaviour. -/
theorem closeDialog_cancels_each_download_witness :
    (closeDialog { initDialogState emptyHostGraph with downloadingModels := ["a", "b"] }).2
        = [Request.cancel "a", Request.cancel "b"]
    ∧ (closeDialog { initDialogState emptyHostGraph with
        downloadingModels := ["a", "b"] }).1.downloadingModels = []
    ∧ (closeDialog { initDialogState emptyHostGraph with
        downloadingModels := ["a", "b"] }).2.count (Request.cancel "a") = 1 := by
  have h := closeDialog_cancels_each_download
    { initDialogState emptyHostGraph with downloadingModels := ["a", "b"] }
  exact ⟨h.1, h.2.1, h.2.2.1 (by decide) "a" (by decide)⟩

/-- Refreshing the Download-All button touches neither the freeze flag
nor the per-model cards. -/
theorem updateDownloadAllButtonState_uiFrozen (st : DialogState) :
    (updateDownloadAllButtonState st).uiFrozen = st.uiFrozen := rfl

/-- Refreshing the Download-All button leaves the per-model cards
alone. -/
theorem getModelUI_updateDownloadAllButtonState (st : DialogState) (name : String) :
    getModelUI (updateDownloadAllButtonState st) name = getModelUI st name := rfl

/-- Applying a progress update never changes the freeze flag. -/
theorem applyProgressUpdate_uiFrozen (st : DialogState) (m : MissingModel) (p : Progress) :
    (applyProgressUpdate st m p).uiFrozen = st.uiFrozen := by
  unfold applyProgressUpdate
  split_ifs <;>
    simp [updateDownloadAllButtonState_uiFrozen, setModelUI_uiFrozen]

/-- The status-poll callback never changes the freeze flag. -/
theorem pollProgressOnUpdate_uiFrozen (m : MissingModel) (st : DialogState) (d : StatusData) :
    (pollProgressOnUpdate m st d).uiFrozen = st.uiFrozen := by
  unfold pollProgressOnUpdate
  by_cases h : d.status = "success"
  · rcases hp : d.progress with _ | progress
    · simp [h, hp]
    · by_cases hf : st.uiFrozen
      · simp [h, hp, hf]
      · simp [h, hp, hf, applyProgressUpdate_uiFrozen]
  · simp [h]

/-- The status-poll error callback never changes the freeze flag. -/
theorem pollProgressOnError_uiFrozen (st : DialogState) (msg : String) :
    (pollProgressOnError st msg).uiFrozen = st.uiFrozen := rfl

/-- Applying a `completed` update sets the model's button label to
`Completed`. -/
theorem applyProgressUpdate_completed_text (st : DialogState) (m : MissingModel) (p : Progress)
    (hp : p.status = "completed") :
    (getModelUI (applyProgressUpdate st m p) m.name).button.text = "Completed" := by
  unfold applyProgressUpdate
  simp [hp, getModelUI_updateDownloadAllButtonState, getModelUI_setModelUI]

/-- Applying an `error` update relabels the model's button `Failed`. -/
theorem applyProgressUpdate_error_text (st : DialogState) (m : MissingModel) (p : Progress)
    (hp : p.status = "error") :
    (getModelUI (applyProgressUpdate st m p) m.name).button.text = "Failed" := by
  unfold applyProgressUpdate
  simp [hp, getModelUI_updateDownloadAllButtonState, getModelUI_setModelUI]

/-- Applying a `cancelled` update relabels the model's button
`Download`. -/
theorem applyProgressUpdate_cancelled_text (st : DialogState) (m : MissingModel) (p : Progress)
    (hp : p.status = "cancelled") :
    (getModelUI (applyProgressUpdate st m p) m.name).button.text = "Download" := by
  unfold applyProgressUpdate
  simp [hp, getModelUI_updateDownloadAllButtonState, getModelUI_setModelUI]

/-- A non-terminal progress update leaves the model's button exactly as
it was. -/
theorem applyProgressUpdate_nonterminal_button (st : DialogState) (m : MissingModel)
    (p : Progress) (h1 : p.status ≠ "completed") (h2 : p.status ≠ "error")
    (h3 : p.status ≠ "cancelled") :
    (getModelUI (applyProgressUpdate st m p) m.name).button
      = (getModelUI st m.name).button := by
  unfold applyProgressUpdate
  by_cases hd : p.status = "downloading" <;>
    simp [hd, h1, h2, h3, getModelUI_setModelUI]

/-- Ticks on which the status poll keeps running: thrown errors (logged,
interval continues) and successful responses that are not terminal. -/
def pollTickContinues : FetchTick StatusData → Bool
  | FetchTick.httpError _ => false
  | FetchTick.exn _ => true
  | FetchTick.ok d => !(pollProgressShouldStop d)

/-- Claim C6: once the reported progress reaches a terminal status
(`completed`, `error` or `cancelled`), polling for that model stops — the
remaining ticks are never consumed, so no subsequent progress update can
revert the button text — and the text set by the terminal branch stands:
`Completed` after a `completed` status (in particular it remains
`Completed` forever after), `Failed` after `error`, `Download` after
`cancelled`; stated for any run whose earlier ticks kept the poll alive
while the UI is not frozen. -/
theorem pollProgress_terminal_is_final :
    ∀ (pre : List (FetchTick StatusData)) (st : DialogState) (m : MissingModel)
      (post : List (FetchTick StatusData)) (d : StatusData) (p : Progress),
      st.uiFrozen = false →
      (∀ t ∈ pre, pollTickContinues t = true) →
      d.status = "success" → d.progress = some p →
      (p.status = "completed" ∨ p.status = "error" ∨ p.status = "cancelled") →
      runPollProgress st m (pre ++ FetchTick.ok d :: post)
          = runPollProgress st m (pre ++ [FetchTick.ok d])
      ∧ (p.status = "completed" →
          (getModelUI (runPollProgress st m (pre ++ FetchTick.ok d :: post))
            m.name).button.text = "Completed")
      ∧ (p.status = "error" →
          (getModelUI (runPollProgress st m (pre ++ FetchTick.ok d :: post))
            m.name).button.text = "Failed")
      ∧ (p.status = "cancelled" →
          (getModelUI (runPollProgress st m (pre ++ FetchTick.ok d :: post))
            m.name).button.text = "Download")
  | [], st, m, post, d, p, hfrozen, _, hd, hdp, hterm => by
    have hstop : pollProgressShouldStop d = true := by
      rcases hterm with h | h | h <;> simp [pollProgressShouldStop, hd, hdp, h]
    have h1 : runPollProgress st m ([] ++ FetchTick.ok d :: post)
        = pollProgressOnUpdate m st d := by
      simp [runPollProgress, pollEndpointRun, hstop]
    have h2 : runPollProgress st m ([] ++ [FetchTick.ok d])
        = pollProgressOnUpdate m st d := by
      simp [runPollProgress, pollEndpointRun, hstop]
    have h3 : pollProgressOnUpdate m st d
        = applyProgressUpdate
            { st with pendingProgressUpdates := mapDelete st.pendingProgressUpdates m.name }
            m p := by
      simp [pollProgressOnUpdate, hd, hdp, hfrozen]
    refine ⟨h1.trans h2.symm, fun hp => ?_, fun hp => ?_, fun hp => ?_⟩
    · rw [h1, h3]
      exact applyProgressUpdate_completed_text _ m p hp
    · rw [h1, h3]
      exact applyProgressUpdate_error_text _ m p hp
    · rw [h1, h3]
      exact applyProgressUpdate_cancelled_text _ m p hp
  | t :: pre, st, m, post, d, p, hfrozen, hcont, hd, hdp, hterm => by
    have hct := hcont t (by simp)
    have hrest : ∀ t' ∈ pre, pollTickContinues t' = true :=
      fun t' ht' => hcont t' (by simp [ht'])
    cases t with
    | httpError code => simp [pollTickContinues] at hct
    | exn msg =>
      have hfrozen' : (pollProgressOnError st msg).uiFrozen = false := by
        rw [pollProgressOnError_uiFrozen]; exact hfrozen
      have ih := pollProgress_terminal_is_final pre (pollProgressOnError st msg) m post d p
        hfrozen' hrest hd hdp hterm
      simpa [runPollProgress, pollEndpointRun] using ih
    | ok d0 =>
      have hns : pollProgressShouldStop d0 = false := by
        simpa [pollTickContinues] using hct
      have hfrozen' : (pollProgressOnUpdate m st d0).uiFrozen = false := by
        rw [pollProgressOnUpdate_uiFrozen]; exact hfrozen
      have ih := pollProgress_terminal_is_final pre (pollProgressOnUpdate m st d0) m post d p
        hfrozen' hrest hd hdp hterm
      simpa [runPollProgress, pollEndpointRun, hns] using ih

/-- A mid-flight progress payload, for concrete instances. -/
def c6DownloadingTick : StatusData :=
  { status := "success"
    progress := some { status := "downloading", progress := 50,
                       downloaded := 52428800, total := 104857600, error := none } }

/-- The completed progress payload, for concrete instances. -/
def c6CompletedProgress : Progress :=
  { status := "completed", progress := 100,
    downloaded := 104857600, total := 104857600, error := none }

/-- The completed status response, for concrete instances. -/
def c6CompletedTick : StatusData :=
  { status := "success", progress := some c6CompletedProgress }

/-- A stray post-completion payload that the stopped poll never sees. -/
def c6CancelledTick : StatusData :=
  { status := "success"
    progress := some { status := "cancelled", progress := 100,
                       downloaded := 0, total := 0, error := none } }

/-- The error progress payload, for concrete instances. -/
def c6ErrorProgress : Progress :=
  { status := "error", progress := 0, downloaded := 0, total := 0, error := some "disk full" }

/-- The error status response, for concrete instances. -/
def c6ErrorTick : StatusData :=
  { status := "success", progress := some c6ErrorProgress }

/-- Concrete instances of terminal-status finality: after `completed`,
`error` and `cancelled` the trailing ticks are ignored and the button
reads `Completed`, `Failed` and `Download` respectively. -/
theorem pollProgress_terminal_is_final_witness :
    (runPollProgress (initDialogState emptyHostGraph) (mkModel "modelA")
        ([FetchTick.ok c6DownloadingTick]
          ++ FetchTick.ok c6CompletedTick :: [FetchTick.ok c6CancelledTick])
      = runPollProgress (initDialogState emptyHostGraph) (mkModel "modelA")
        ([FetchTick.ok c6DownloadingTick] ++ [FetchTick.ok c6CompletedTick]))
    ∧ (getModelUI (runPollProgress (initDialogState emptyHostGraph) (mkModel "modelA")
        ([FetchTick.ok c6DownloadingTick]
          ++ FetchTick.ok c6CompletedTick :: [FetchTick.ok c6CancelledTick]))
        "modelA").button.text = "Completed"
    ∧ (runPollProgress (initDialogState emptyHostGraph) (mkModel "modelA")
        ([FetchTick.ok c6DownloadingTick]
          ++ FetchTick.ok c6ErrorTick :: [FetchTick.ok c6CompletedTick])
      = runPollProgress (initDialogState emptyHostGraph) (mkModel "modelA")
        ([FetchTick.ok c6DownloadingTick] ++ [FetchTick.ok c6ErrorTick]))
    ∧ (getModelUI (runPollProgress (initDialogState emptyHostGraph) (mkModel "modelA")
        ([FetchTick.ok c6DownloadingTick]
          ++ FetchTick.ok c6ErrorTick :: [FetchTick.ok c6CompletedTick]))
        "modelA").button.text = "Failed"
    ∧ (runPollProgress (initDialogState emptyHostGraph) (mkModel "modelA")
        ([] ++ FetchTick.ok c6CancelledTick :: [FetchTick.ok c6DownloadingTick])
      = runPollProgress (initDialogState emptyHostGraph) (mkModel "modelA")
        ([] ++ [FetchTick.ok c6CancelledTick]))
    ∧ (getModelUI (runPollProgress (initDialogState emptyHostGraph) (mkModel "modelA")
        ([] ++ FetchTick.ok c6CancelledTick :: [FetchTick.ok c6DownloadingTick]))
        "modelA").button.text = "Download" := by
  have hc := pollProgress_terminal_is_final [FetchTick.ok c6DownloadingTick]
    (initDialogState emptyHostGraph) (mkModel "modelA") [FetchTick.ok c6CancelledTick]
    c6CompletedTick c6CompletedProgress
    (by decide) (by decide) (by decide) (by decide) (Or.inl (by decide))
  have he := pollProgress_terminal_is_final [FetchTick.ok c6DownloadingTick]
    (initDialogState emptyHostGraph) (mkModel "modelA") [FetchTick.ok c6CompletedTick]
    c6ErrorTick c6ErrorProgress
    (by decide) (by decide) (by decide) (by decide) (Or.inr (Or.inl (by decide)))
  have hx := pollProgress_terminal_is_final []
    (initDialogState emptyHostGraph) (mkModel "modelA") [FetchTick.ok c6DownloadingTick]
    c6CancelledTick
    { status := "cancelled", progress := 100, downloaded := 0, total := 0, error := none }
    (by decide) (by decide) (by decide) (by decide) (Or.inr (Or.inr (by decide)))
  exact ⟨hc.1, hc.2.1 (by decide), he.1, he.2.2.1 (by decide), hx.1, hx.2.2.2 (by decide)⟩

/-- Membership in a JS-Set deletion. -/
theorem mem_setDelete (l : List String) (x a : String) :
    a ∈ setDelete l x ↔ a ∈ l ∧ a ≠ x := by
  simp [setDelete, List.mem_filter]

/-- Refreshing the Download-All button leaves the set of in-flight
downloads alone. -/
theorem updateDownloadAllButtonState_downloadingModels (st : DialogState) :
    (updateDownloadAllButtonState st).downloadingModels = st.downloadingModels := rfl

/-- The effect of `downloadModel` on `downloadingModels`: a no-op when
already downloading, otherwise the name is added and — on a failed
request — removed again by the catch block. -/
theorem downloadModel_downloadingModels (st : DialogState) (m : MissingModel)
    (outcome : DownloadResult) :
    (downloadModel st m outcome).1.downloadingModels
      = if m.name ∈ st.downloadingModels then st.downloadingModels
        else
          match outcome with
          | DownloadResult.ok _ => st.downloadingModels ++ [m.name]
          | DownloadResult.httpError _ _ =>
              setDelete (st.downloadingModels ++ [m.name]) m.name
          | DownloadResult.networkError _ =>
              setDelete (st.downloadingModels ++ [m.name]) m.name := by
  by_cases hmem : m.name ∈ st.downloadingModels
  · simp [downloadModel, hmem]
  · rw [if_neg hmem]
    cases outcome with
    | ok corr =>
      cases corr with
      | none =>
        simp [downloadModel, hmem, setAdd, setModelUI_downloadingModels]
      | some base =>
        simp only [downloadModel, if_neg hmem]
        split <;> (try split) <;> simp [setAdd, hmem, setModelUI_downloadingModels]
    | httpError code text =>
      simp only [downloadModel, if_neg hmem]
      rw [(downloadModelCatch_ui _ m _).2.2.2.2.2.2, setModelUI_downloadingModels]
      simp [setAdd, hmem]
    | networkError msg =>
      simp only [downloadModel, if_neg hmem]
      rw [(downloadModelCatch_ui _ m _).2.2.2.2.2.2, setModelUI_downloadingModels]
      simp [setAdd, hmem]

/-- The effect of `applyProgressUpdate` on `downloadingModels`: terminal
statuses remove the model, anything else leaves the set alone. -/
theorem applyProgressUpdate_downloadingModels (st : DialogState) (m : MissingModel)
    (p : Progress) :
    (applyProgressUpdate st m p).downloadingModels
      = if p.status = "completed" ∨ p.status = "error" ∨ p.status = "cancelled"
        then setDelete st.downloadingModels m.name
        else st.downloadingModels := by
  unfold applyProgressUpdate
  by_cases h1 : p.status = "downloading"
  · have hterm : ¬(p.status = "completed" ∨ p.status = "error" ∨ p.status = "cancelled") := by
      simp [h1]
    simp [h1, hterm, setModelUI_downloadingModels]
  · by_cases h2 : p.status = "completed"
    · simp [h1, h2, updateDownloadAllButtonState_downloadingModels,
        setModelUI_downloadingModels]
    · by_cases h3 : p.status = "error"
      · simp [h1, h2, h3, updateDownloadAllButtonState_downloadingModels,
          setModelUI_downloadingModels]
      · by_cases h4 : p.status = "cancelled"
        · simp [h1, h2, h3, h4, updateDownloadAllButtonState_downloadingModels,
            setModelUI_downloadingModels]
        · simp [h1, h2, h3, h4, setModelUI_downloadingModels]

/-- One session event moves `downloadingModels` membership exactly as the
spec predicate prescribes. -/
theorem dialogStep_mem (st : DialogState) (e : DialogEvent) (name : String) :
    (name ∈ (dialogStep st e).downloadingModels)
      ↔ specInFlightStep name (decide (name ∈ st.downloadingModels)) e = true := by
  cases e with
  | startDownload m outcome =>
    show (name ∈ (downloadModel st m outcome).1.downloadingModels) ↔ _
    rw [downloadModel_downloadingModels]
    by_cases hmem : m.name ∈ st.downloadingModels
    · rw [if_pos hmem]
      by_cases hn : m.name = name
      · subst hn
        simp [specInFlightStep, hmem]
      · simp [specInFlightStep, hn]
    · rw [if_neg hmem]
      cases outcome with
      | ok corr =>
        by_cases hn : m.name = name
        · subst hn
          simp [specInFlightStep, hmem, List.mem_append]
        · simp [specInFlightStep, hn, List.mem_append, Ne.symm hn]
      | httpError code text =>
        by_cases hn : m.name = name
        · subst hn
          simp [specInFlightStep, hmem, mem_setDelete]
        · simp [specInFlightStep, hn, mem_setDelete, List.mem_append, Ne.symm hn]
      | networkError msg =>
        by_cases hn : m.name = name
        · subst hn
          simp [specInFlightStep, hmem, mem_setDelete]
        · simp [specInFlightStep, hn, mem_setDelete, List.mem_append, Ne.symm hn]
  | progressUpdate m p =>
    show (name ∈ (applyProgressUpdate st m p).downloadingModels) ↔ _
    rw [applyProgressUpdate_downloadingModels]
    by_cases ht : p.status = "completed" ∨ p.status = "error" ∨ p.status = "cancelled"
    · rw [if_pos ht]
      by_cases hn : m.name = name
      · subst hn
        simp [specInFlightStep, ht, mem_setDelete]
      · simp [specInFlightStep, hn, ht, mem_setDelete, Ne.symm hn]
    · rw [if_neg ht]
      simp [specInFlightStep, ht]
  | closeEvent =>
    show (name ∈ (closeDialog st).1.downloadingModels) ↔ _
    simp [closeDialog, specInFlightStep]

/-- Membership after a whole trace equals the spec fold, from any starting
state. -/
theorem runDialog_mem : ∀ (tr : List DialogEvent) (st : DialogState) (name : String),
    (name ∈ (runDialog st tr).downloadingModels)
      ↔ tr.foldl (specInFlightStep name) (decide (name ∈ st.downloadingModels)) = true
  | [], st, name => by simp [runDialog]
  | e :: tr, st, name => by
    have hstep := dialogStep_mem st e name
    have ih := runDialog_mem tr (dialogStep st e) name
    have hb : decide (name ∈ (dialogStep st e).downloadingModels)
        = specInFlightStep name (decide (name ∈ st.downloadingModels)) e := by
      rcases hs : specInFlightStep name (decide (name ∈ st.downloadingModels)) e with _ | _
      · rw [hs] at hstep
        simp only [decide_eq_false_iff_not]
        intro hcon
        exact absurd (hstep.mp hcon) (by simp)
      · rw [hs] at hstep
        simp only [decide_eq_true_eq]
        exact hstep.mpr rfl
    rw [hb] at ih
    simpa [runDialog, List.foldl_cons] using ih

/-- Claim C10: for every session trace from a fresh dialog,
`downloadingModels` contains exactly the names whose download has been
initiated by `downloadModel` and has neither failed at request time, nor
had a terminal progress status (`completed`, `error`, `cancelled`)
applied, nor been cleared by closing the dialog (`specInFlight` spells
out this in-flight predicate, modelled from the claim). -/
theorem downloadingModels_tracks_in_flight (g : Graph) (tr : List DialogEvent) (name : String) :
    (name ∈ (runDialog (initDialogState g) tr).downloadingModels)
      ↔ specInFlight name tr = true := by
  have h := runDialog_mem tr (initDialogState g) name
  simpa [specInFlight, initDialogState] using h
